import Mathlib

/-!
Verification development for the fcc-physics-events backend: a shallow
embedding in Lean 4 of the metadata merge engine, the ingestion path
parser, the dropdown filter resolution, the search-row post-processing,
the navigation alias generator and the query-language SQL translator,
with theorems settling the specification claims about them.

Python data is embedded as follows: dict values become `PyVal`,
dicts become ordered association lists (`PyDict`), machine strings are
Lean `String`, Python `None` is `PyVal.none`, and fallible paths return
`Option`/`Except`.
-/

set_option maxHeartbeats 1000000

namespace FccEv

/-- Embedding of the Python values that can appear in a dataset's
metadata dict, in a query AST, and in a SQL parameter list.
Floats keep their source literal (no claim depends on float arithmetic);
`date` embeds a `datetime.datetime` produced by `parse_date_string`. -/
inductive PyVal where
  | none
  | bool (b : Bool)
  | int (n : Int)
  | float (lit : String)
  | str (s : String)
  | list (xs : List PyVal)
  | dict (entries : List (String × PyVal))
  | date (y mo d h mi s : Nat)
deriving Repr, BEq

/-- Embedding of the Python test `v is None`. -/
def PyVal.isNone : PyVal → Bool
  | .none => true
  | _ => false

/-- Embedding of Python `value == "<literal>"` for a parse value: only a
string ever compares equal to a string literal (numbers, None, booleans and
containers never do). -/
def pyEqStr : PyVal → String → Bool
  | .str s, t => s == t
  | _, _ => false

/-- Truthiness of a float literal: Python `bool(float(lit))` is false exactly
for a zero value, i.e. a literal with no nonzero digit. -/
def floatTruthy (lit : String) : Bool :=
  lit.data.any (fun c => c.isDigit && c ≠ '0')

/-- Python truthiness (`bool(v)`) for the embedded values. -/
def PyVal.truthy : PyVal → Bool
  | .none => false
  | .bool b => b
  | .int n => n ≠ 0
  | .float lit => floatTruthy lit
  | .str s => s ≠ ""
  | .list xs => !xs.isEmpty
  | .dict es => !es.isEmpty
  | .date _ _ _ _ _ _ => true

/-- Orderd association list standing for a Python `dict[str, Any]`
(Python dicts preserve insertion order and have unique keys). -/
abbrev PyDict := List (String × PyVal)

/-- Embedding of `d.get(k)` / `d[k]` lookup (first matching key). -/
def dictGet? (d : PyDict) (k : String) : Option PyVal :=
  match d with
  | [] => Option.none
  | (k', v) :: rest => if k' = k then some v else dictGet? rest k

/-- Embedding of `d.get(k, default)`. -/
def dictGetD (d : PyDict) (k : String) (dflt : PyVal) : PyVal :=
  (dictGet? d k).getD dflt

/-- Embedding of `k in d`. -/
def dictHasKey (d : PyDict) (k : String) : Bool :=
  (dictGet? d k).isSome

/-- Embedding of `d[k] = v`: replace the value in place when the key is
present, append otherwise (Python dicts keep the original key position). -/
def dictSet (d : PyDict) (k : String) (v : PyVal) : PyDict :=
  match d with
  | [] => [(k, v)]
  | (k', v') :: rest =>
      if k' = k then (k', v) :: rest else (k', v') :: dictSet rest k v

/-- Embedding of `d.pop(k, None)`'s effect on the dict. -/
def dictPop (d : PyDict) (k : String) : PyDict :=
  d.filter (fun kv => kv.1 ≠ k)

/-! ### Lock-aware metadata merge (`app/storage/database.py`) -/

/-- Embedding of Python `s.startswith(pre)` (structural, so that concrete
instances evaluate inside the kernel). -/
def strHasPre (pre s : String) : Bool :=
  pre.data.isPrefixOf s.data

/-- Embedding of Python `s.endswith(suf)`. -/
def strHasSuf (suf s : String) : Bool :=
  suf.data.isSuffixOf s.data

/-- Test from `_merge_metadata_respecting_locks` / `_is_lock_field`:
`key.startswith("__") and key.endswith("__lock__")`. -/
def isLockFieldKey (key : String) : Bool :=
  strHasPre "__" key && strHasSuf "__lock__" key

/-- Lock sentinel name for a field: Python `f"__{key}__lock__"`. -/
def lockFieldName (key : String) : String :=
  "__" ++ key ++ "__lock__"

/-- Loop body of `Database._merge_metadata_respecting_locks`: a lock-sentinel
key is assigned unconditionally; a regular key is assigned only when its
sentinel is not currently truthy in the existing metadata. -/
def mergeRespectStep (existing merged : PyDict) (kv : String × PyVal) : PyDict :=
  if isLockFieldKey kv.1 then
    dictSet merged kv.1 kv.2
  else
    let isLocked := (dictGetD existing (lockFieldName kv.1) (.bool false)).truthy
    if !isLocked then dictSet merged kv.1 kv.2 else merged

/-- Embedding of `Database._merge_metadata_respecting_locks` (the merge used
by the ingestion upsert path, lines 597-618): start from a copy of the
existing metadata and run the loop body over the new metadata's items. -/
def mergeMetadataRespectingLocks (existing newMeta : PyDict) : PyDict :=
  newMeta.foldl (mergeRespectStep existing) existing

/-- Embedding of `Database._preserve_existing_lock_fields`. -/
def preserveExistingLockFields (current merged : PyDict) : PyDict :=
  current.foldl
    (fun m kv => if isLockFieldKey kv.1 then dictSet m kv.1 kv.2 else m)
    merged

/-- Embedding of `Database._handle_lock_field_update`. -/
def handleLockFieldUpdate (key : String) (value : PyVal) (merged : PyDict) : PyDict :=
  if value.isNone then dictPop merged key else dictSet merged key value

/-- Embedding of `Database._handle_regular_field_update`. -/
def handleRegularFieldUpdate (key : String) (value : PyVal)
    (current merged : PyDict) : PyDict :=
  let isLocked := (dictGetD current (lockFieldName key) (.bool false)).truthy
  if !isLocked then dictSet merged key value else merged

/-- Embedding of `Database._handle_explicit_unlocks`. -/
def handleExplicitUnlocks (newMeta merged : PyDict) : PyDict :=
  newMeta.foldl
    (fun m kv =>
      if isLockFieldKey kv.1 && kv.2.isNone then dictPop m kv.1 else m)
    merged

/-- Embedding of `Database._merge_metadata_with_locks` (the merge used by the
entity-update path, lines 955-976): preserve existing lock fields, process
each new field, then remove explicitly unlocked sentinels. -/
def mergeMetadataWithLocks (current newMeta : PyDict) : PyDict :=
  let merged := current
  let merged := preserveExistingLockFields current merged
  let merged := newMeta.foldl
    (fun m kv =>
      if isLockFieldKey kv.1 then handleLockFieldUpdate kv.1 kv.2 m
      else handleRegularFieldUpdate kv.1 kv.2 current m)
    merged
  handleExplicitUnlocks newMeta merged

/-! ### Batch import accounting (`import_fcc_dict`, `_validate_import_success`) -/

/-- Embedding of `Database._validate_import_success` (lines 653-659), as the
test "the import raises": `failed_count > total_datasets / 2` with Python's
exact real division is `2 * failed_count > total_datasets`. -/
def validateImportSuccess (processedCount failedCount : Nat) : Bool :=
  let totalDatasets := processedCount + failedCount
  decide (totalDatasets > 0) && decide (2 * failedCount > totalDatasets)

/-- Counting loop of `Database._process_dataset_collection`: each record's
outcome is `some row` when `_process_single_dataset` succeeded (producing
row `row`) and `none` when it raised; the loop counts both. -/
def processDatasetCollection (outcomes : List (Option String)) : Nat × Nat :=
  ((outcomes.filter Option.isSome).length, (outcomes.filter Option.isNone).length)

/-- Embedding of `Database.import_fcc_dict` (lines 326-340): the batch runs in
one transaction, so when `_validate_import_success` raises nothing of the
batch persists (the initial rows are returned unchanged inside the error
path by the caller); otherwise the transaction commits every successful
record. -/
def importFccDict (outcomes : List (Option String))
    (initialRows : List String) : Except String (List String) :=
  let counts := processDatasetCollection outcomes
  if validateImportSuccess counts.1 counts.2 then
    Except.error "BatchImportError"
  else
    Except.ok (initialRows ++ outcomes.filterMap id)

/-! ### Ingestion path parsing (`_parse_path_components` and friends) -/

/-- Characters Python's `str.strip()` removes (ASCII whitespace). -/
def pyIsSpace (c : Char) : Bool :=
  c = ' ' || c = '\t' || c = '\n' || c = '\r' || c = '\x0b' || c = '\x0c'

/-- Embedding of Python `s.strip()`. -/
def pyStrip (s : String) : String :=
  ⟨((s.data.dropWhile pyIsSpace).reverse.dropWhile pyIsSpace).reverse⟩

/-- Split a character list at every `/` (keeping empty groups). -/
def splitSlash : List Char → List (List Char)
  | [] => [[]]
  | c :: rest =>
      let gs := splitSlash rest
      if c = '/' then [] :: gs
      else
        match gs with
        | g :: t => (c :: g) :: t
        | [] => [[c]]

/-- Embedding of `pathlib.Path(path).parts` under POSIX rules: an absolute
path contributes a root part (`//` for exactly two leading slashes, `/`
otherwise), and empty and `.` components are dropped. -/
def pathParts (path : String) : List String :=
  let comps :=
    ((splitSlash path.data).map (fun g => (⟨g⟩ : String))).filter
      (fun c => c ≠ "" && c ≠ ".")
  let root : List String :=
    if strHasPre "//" path && !strHasPre "///" path then ["//"]
    else if strHasPre "/" path then ["/"] else []
  root ++ comps

/-- Fuelled engine of Python `s.replace(pat, rep)`: replace all
non-overlapping occurrences left to right. A fuel of `cs.length` always
suffices because each step consumes at least one character. -/
def replaceAllF : Nat → List Char → List Char → List Char → List Char
  | 0, cs, _, _ => cs
  | fuel + 1, cs, pat, rep =>
      match cs with
      | [] => []
      | c :: rest =>
          if !pat.isEmpty && pat.isPrefixOf (c :: rest) then
            rep ++ replaceAllF fuel (List.drop pat.length (c :: rest)) pat rep
          else c :: replaceAllF fuel rest pat rep

/-- Embedding of Python `s.replace(pat, rep)` (all occurrences, not only a
trailing one). -/
def pyReplace (s pat rep : String) : String :=
  ⟨replaceAllF s.data.length s.data pat.data rep.data⟩

/-- Names extracted from a dataset path by `_parse_path_components`. -/
structure PathComponents where
  acceleratorName : Option String
  stageName : Option String
  campaignName : Option String
  detectorName : Option String
deriving Repr, DecidableEq

/-- Embedding of `Database._parse_path_components` (lines 429-439): position
4 of `Path(path).parts` is the accelerator, position 6 with every
occurrence of `"Events"` removed is the stage, position 7 the campaign and
position 8 the detector; a missing position gives `None`. -/
def parsePathComponents (path : String) : PathComponents :=
  let ps := pathParts path
  { acceleratorName := ps[4]?
    stageName := (ps[6]?).map (fun s => pyReplace s "Events" "")
    campaignName := ps[7]?
    detectorName := ps[8]? }

/-! ### Navigation entity resolution (`_get_or_create_entity`) -/

/-- A row of a navigation table: its unique name, its serial id, and any
extra columns set at insertion (a detector carries `accelerator_id`). -/
structure EntityRow where
  name : String
  rid : Nat
  extra : List (String × Nat)
deriving Repr, DecidableEq

/-- The navigation tables reachable during ingestion, with the next value of
the id sequence (PostgreSQL serials start at 1). -/
structure EntityStore where
  tables : List (String × List EntityRow)
  nextId : Nat
deriving Repr, DecidableEq

/-- Rows of one table inside the association list. -/
def tablesGet (tbls : List (String × List EntityRow)) (table : String) :
    List EntityRow :=
  ((tbls.find? (fun t => t.1 == table)).map Prod.snd).getD []

/-- Rows of one table of the store. -/
def storeTable (store : EntityStore) (table : String) : List EntityRow :=
  tablesGet store.tables table

/-- Replace one table's rows inside the association list. -/
def storeSetTable : List (String × List EntityRow) → String → List EntityRow →
    List (String × List EntityRow)
  | [], table, rows => [(table, rows)]
  | (t, rs) :: rest, table, rows =>
      if t = table then (t, rows) :: rest
      else (t, rs) :: storeSetTable rest table rows

/-- ASCII lowercasing standing for the case folding of `ILIKE`. -/
def strLower (s : String) : String :=
  ⟨s.data.map Char.toLower⟩

/-- Model of `Database._get_or_create_entity` (lines 288-324): the lookup
`SELECT id FROM table WHERE name ILIKE $1` is an exact-value
case-insensitive match (design note §9: no wildcards); on a miss the row
is inserted with the next serial id. The unique-violation re-select branch
needs no separate arm here: a present row is always found first. -/
def getOrCreateEntity (store : EntityStore) (table name : String)
    (extra : List (String × Nat)) : Nat × EntityStore :=
  match (storeTable store table).find?
      (fun e => strLower e.name == strLower name) with
  | some e => (e.rid, store)
  | Option.none =>
      (store.nextId,
        { tables :=
            storeSetTable store.tables table
              (storeTable store table ++ [⟨name, store.nextId, extra⟩])
          nextId := store.nextId + 1 })

/-- Foreign keys produced by `_create_entities_from_path_components`. -/
structure ForeignKeyIds where
  acceleratorId : Option Nat
  stageId : Option Nat
  campaignId : Option Nat
  detectorId : Option Nat
deriving Repr, DecidableEq

/-- Python truthiness of `foreign_key_ids["accelerator_id"]` (an `int | None`
value): `None` and `0` are falsy. -/
def optTruthy : Option Nat → Bool
  | Option.none => false
  | some n => decide (n ≠ 0)

/-- Condition guarding each creation: `name and name.strip()`. -/
def namePresent (name : Option String) : Bool :=
  match name with
  | Option.none => false
  | some nm => nm != "" && pyStrip nm != ""

/-- Accelerator step of `_create_entities_from_path_components`. -/
def createAccelerator (store : EntityStore) (pc : PathComponents) :
    Option Nat × EntityStore :=
  match pc.acceleratorName with
  | some nm =>
      if nm != "" && pyStrip nm != "" then
        let r := getOrCreateEntity store "accelerators" (pyStrip nm) []
        (some r.1, r.2)
      else (Option.none, store)
  | Option.none => (Option.none, store)

/-- Stage step of `_create_entities_from_path_components`. -/
def createStage (store : EntityStore) (pc : PathComponents) :
    Option Nat × EntityStore :=
  match pc.stageName with
  | some nm =>
      if nm != "" && pyStrip nm != "" then
        let r := getOrCreateEntity store "stages" (pyStrip nm) []
        (some r.1, r.2)
      else (Option.none, store)
  | Option.none => (Option.none, store)

/-- Campaign step of `_create_entities_from_path_components`. -/
def createCampaign (store : EntityStore) (pc : PathComponents) :
    Option Nat × EntityStore :=
  match pc.campaignName with
  | some nm =>
      if nm != "" && pyStrip nm != "" then
        let r := getOrCreateEntity store "campaigns" (pyStrip nm) []
        (some r.1, r.2)
      else (Option.none, store)
  | Option.none => (Option.none, store)

/-- Detector step of `_create_entities_from_path_components`: it runs only
when the detector name is present and the accelerator id is truthy, and it
carries the accelerator id as an extra column. -/
def createDetector (store : EntityStore) (pc : PathComponents)
    (accId : Option Nat) : Option Nat × EntityStore :=
  match pc.detectorName with
  | some nm =>
      if nm != "" && pyStrip nm != "" && optTruthy accId then
        let r := getOrCreateEntity store "detectors" (pyStrip nm)
          [("accelerator_id", accId.getD 0)]
        (some r.1, r.2)
      else (Option.none, store)
  | Option.none => (Option.none, store)

/-- Embedding of `Database._create_entities_from_path_components` (lines
441-499): resolve or create accelerator, stage, campaign, then detector
(the latter only when the accelerator id resolved truthy). -/
def createEntitiesFromPathComponents (store : EntityStore)
    (pc : PathComponents) : ForeignKeyIds × EntityStore :=
  let acc := createAccelerator store pc
  let stg := createStage acc.2 pc
  let cmp := createCampaign stg.2 pc
  let det := createDetector cmp.2 pc acc.1
  (⟨acc.1, stg.1, cmp.1, det.1⟩, det.2)

/-! ### Filtered dropdowns (`get_dropdown_items` and helpers) -/

/-- Discovered description of one navigation table (the fields of
`navigation_analysis["navigation_tables"][entity_key]` the dropdown
path reads). -/
structure TableInfo where
  tableName : String
  primaryKey : String
  nameColumn : String
deriving Repr, DecidableEq

/-- Row of a navigation table as the dropdown query sees it. -/
structure NavRow where
  rid : Nat
  name : String
deriving Repr, DecidableEq

/-- The tables the dropdown query reads: navigation rows keyed by table
name, and the main table's rows given as their foreign-key columns. -/
structure DropdownDb where
  navRows : List (String × List NavRow)
  mainRows : List (List (String × Nat))
deriving Repr, DecidableEq

/-- Rows of one navigation table. -/
def navTableRows (db : DropdownDb) (table : String) : List NavRow :=
  ((db.navRows.find? (fun p => p.1 == table)).map Prod.snd).getD []

/-- Column lookup inside a main row. -/
def rowGet (row : List (String × Nat)) (col : String) : Option Nat :=
  (row.find? (fun p => p.1 == col)).map Prod.snd

/-- Digit-list based embedding of `int(s)` / string-to-integer coercion. -/
def strToNat? (s : String) : Option Nat :=
  if s ≠ "" && s.data.all Char.isDigit then
    some (s.data.foldl (fun a c => a * 10 + (c.toNat - '0'.toNat)) 0)
  else Option.none

/-- One conjunct `d.<col> = $n` of the dropdown WHERE clause, with its bound
parameter: a name filter binds the resolved integer id, an `_id` filter
binds the raw string value. -/
inductive DropVal where
  | nat (n : Nat)
  | str (s : String)
deriving Repr, DecidableEq

/-- A produced filter condition (column name and bound value). -/
structure DropCond where
  col : String
  val : DropVal
deriving Repr, DecidableEq

/-- Embedding of `Database._process_name_filter` (lines 1710-1737): strip
`_name` (Python `replace` removes every occurrence), look the entity key
up in the navigation analysis, resolve the value by an exact-value
case-insensitive (`ILIKE`) lookup on the table's name column, and return
the id condition; an unknown entity key, a missing row or a falsy id give
`None`. -/
def processNameFilter (db : DropdownDb) (nav : List (String × TableInfo))
    (filterKey filterValue : String) : Option (String × Nat) :=
  let entityKey := pyReplace filterKey "_name" ""
  match nav.find? (fun p => p.1 == entityKey) with
  | Option.none => Option.none
  | some p =>
      match (navTableRows db p.2.tableName).find?
          (fun r => strLower r.name == strLower filterValue) with
      | Option.none => Option.none
      | some r => if r.rid ≠ 0 then some (entityKey, r.rid) else Option.none

/-- Loop body of `Database._process_dropdown_filters`: a `_name` key
contributes its resolved id condition when resolution succeeds and nothing
otherwise; an `_id` key is bound directly; other keys are ignored. -/
def dropdownFilterStep (db : DropdownDb) (nav : List (String × TableInfo))
    (conds : List DropCond) (kv : String × String) : List DropCond :=
  if strHasSuf "_name" kv.1 then
    match processNameFilter db nav kv.1 kv.2 with
    | some r => conds ++ [⟨r.1 ++ "_id", .nat r.2⟩]
    | Option.none => conds
  else if strHasSuf "_id" kv.1 then conds ++ [⟨kv.1, .str kv.2⟩]
  else conds

/-- Embedding of `Database._process_dropdown_filters` (lines 1684-1708): walk
the filter dict in order, accumulating conditions. -/
def processDropdownFilters (db : DropdownDb) (nav : List (String × TableInfo))
    (filterDict : List (String × String)) : List DropCond :=
  filterDict.foldl (dropdownFilterStep db nav) []

/-- Does a main row satisfy one dropdown condition (`d.<col> = $n`)? A
string-bound value is coerced to an integer the way the database coerces
the parameter against an integer column. -/
def dropCondHolds (row : List (String × Nat)) (c : DropCond) : Bool :=
  match c.val with
  | .nat n => rowGet row c.col == some n
  | .str s => rowGet row c.col == strToNat? s

/-- Embedding of `Database.get_dropdown_items` (lines 1635-1668) together
with the semantics of its generated query (`_build_dropdown_base_query` +
`_finalize_dropdown_query`): items of the navigation table that some main
row references through `d.<table_key>_id` while satisfying every produced
filter condition. An unknown `table_key` raises `ValueError`. The final
`ORDER BY name` only orders the output and is not modelled. -/
def getDropdownItems (db : DropdownDb) (tableKey : String)
    (nav : List (String × TableInfo)) (filterDict : List (String × String)) :
    Except String (List (Nat × String)) :=
  match nav.find? (fun p => p.1 == tableKey) with
  | Option.none =>
      Except.error ("Navigation table '" ++ tableKey ++ "' not found")
  | some p =>
      let conds := processDropdownFilters db nav filterDict
      let items := (navTableRows db p.2.tableName).filter
        (fun t => db.mainRows.any
          (fun d => rowGet d (tableKey ++ "_id") == some t.rid &&
            conds.all (dropCondHolds d)))
      Except.ok (items.map (fun t => (t.rid, t.name)))

/-- Spec-side reading of one filter item: the condition it contributes, if
any (used to state that unresolvable filters are skipped). -/
def dropdownCondOfFilter (db : DropdownDb) (nav : List (String × TableInfo))
    (kv : String × String) : Option DropCond :=
  if strHasSuf "_name" kv.1 then
    (processNameFilter db nav kv.1 kv.2).map (fun r => ⟨r.1 ++ "_id", .nat r.2⟩)
  else if strHasSuf "_id" kv.1 then some ⟨kv.1, .str kv.2⟩
  else Option.none

/-! ### Search-row metadata post-processing (`perform_search`) -/

/-- JSON values as `json.loads` returns them; numbers keep their lexed
literal (no claim depends on numeric interpretation). -/
inductive Json where
  | null
  | bool (b : Bool)
  | num (lit : String)
  | str (s : String)
  | arr (xs : List Json)
  | obj (members : List (String × Json))
deriving Repr, BEq

/-- Is the value a JSON object (a Python mapping after `json.loads`)? -/
def Json.isObj : Json → Bool
  | .obj _ => true
  | _ => false

/-- Whitespace skipped between JSON tokens. -/
def jsonSkipWs (cs : List Char) : List Char :=
  cs.dropWhile (fun c => c = ' ' || c = '\t' || c = '\n' || c = '\r')

/-- Value of one hexadecimal digit (code points: `0`-`9` are 48-57, `A`-`F`
are 65-70, `a`-`f` are 97-102). -/
def hexVal? (c : Char) : Option Nat :=
  let n := c.toNat
  if 48 ≤ n && n ≤ 57 then some (n - 48)
  else if 97 ≤ n && n ≤ 102 then some (n - 87)
  else if 65 ≤ n && n ≤ 70 then some (n - 55)
  else Option.none

/-- The character an escape `\\c` denotes, for the single-character escapes
of the JSON grammar. -/
def jsonEscape? (c : Char) : Option Char :=
  if c = '"' then some '"'
  else if c = '\\' then some '\\'
  else if c = '/' then some '/'
  else if c = 'b' then some '\x08'
  else if c = 'f' then some '\x0c'
  else if c = 'n' then some '\n'
  else if c = 'r' then some '\r'
  else if c = 't' then some '\t'
  else Option.none

/-- Fuelled body of the JSON string lexer (called after the opening quote;
returns the decoded characters and the remainder after the closing
quote). Control characters must be escaped, as in `json.loads`. -/
def parseJStringF : Nat → List Char → Option (List Char × List Char)
  | 0, _ => Option.none
  | _ + 1, [] => Option.none
  | fuel + 1, c :: rest =>
      if c = '"' then some ([], rest)
      else if c = '\\' then
        match rest with
        | [] => Option.none
        | e :: rest2 =>
            if e = 'u' then
              match rest2 with
              | h1 :: h2 :: h3 :: h4 :: rest3 =>
                  match hexVal? h1, hexVal? h2, hexVal? h3, hexVal? h4 with
                  | some a, some b, some cc, some d =>
                      match parseJStringF fuel rest3 with
                      | some r =>
                          some (Char.ofNat (((a * 16 + b) * 16 + cc) * 16 + d)
                            :: r.1, r.2)
                      | Option.none => Option.none
                  | _, _, _, _ => Option.none
              | _ => Option.none
            else
              match jsonEscape? e with
              | some ec =>
                  match parseJStringF fuel rest2 with
                  | some r => some (ec :: r.1, r.2)
                  | Option.none => Option.none
              | Option.none => Option.none
      else if c.toNat < 32 then Option.none
      else
        match parseJStringF fuel rest with
        | some r => some (c :: r.1, r.2)
        | Option.none => Option.none

/-- JSON string lexer with sufficient fuel. -/
def parseJString (cs : List Char) : Option (List Char × List Char) :=
  parseJStringF (cs.length + 1) cs

/-- JSON number lexer: `-? (0 | [1-9][0-9]*) frac? exp?`, returning the
lexed literal and the remainder. -/
def parseJNumber (cs : List Char) : Option (List Char × List Char) :=
  let signAndRest :=
    match cs with
    | '-' :: rest => (['-'], rest)
    | _ => (([] : List Char), cs)
  let intDigits := signAndRest.2.takeWhile Char.isDigit
  let afterInt := signAndRest.2.dropWhile Char.isDigit
  if intDigits.isEmpty then Option.none
  else if intDigits.length > 1 && intDigits.headD '0' = '0' then Option.none
  else
    let fracRes : Option (List Char × List Char) :=
      match afterInt with
      | '.' :: ds =>
          let fd := ds.takeWhile Char.isDigit
          if fd.isEmpty then Option.none
          else some ('.' :: fd, ds.dropWhile Char.isDigit)
      | _ => some ([], afterInt)
    match fracRes with
    | Option.none => Option.none
    | some fr =>
        let expRes : Option (List Char × List Char) :=
          match fr.2 with
          | e :: es =>
              if e = 'e' || e = 'E' then
                let esr :=
                  match es with
                  | '+' :: t => (['+'], t)
                  | '-' :: t => (['-'], t)
                  | _ => (([] : List Char), es)
                let ed := esr.2.takeWhile Char.isDigit
                if ed.isEmpty then Option.none
                else some (e :: (esr.1 ++ ed), esr.2.dropWhile Char.isDigit)
              else some ([], fr.2)
          | [] => some ([], fr.2)
        match expRes with
        | Option.none => Option.none
        | some er =>
            some (signAndRest.1 ++ intDigits ++ fr.1 ++ er.1, er.2)

/-- Intermediate result of the fuelled JSON parser: a value, the items of an
array, or the members of an object. -/
inductive JPart where
  | val (j : Json)
  | items (xs : List Json)
  | members (ms : List (String × Json))
deriving Repr

/-- Fuelled recursive-descent JSON parser; `mode` 0 parses one value, 1 the
items after `[`, 2 the members after a non-empty `\x7b`. Structural in the
fuel so that concrete instances evaluate inside the kernel. -/
def parseJF : Nat → Nat → List Char → Option (JPart × List Char)
  | 0, _, _ => Option.none
  | fuel + 1, mode, cs =>
      if mode = 0 then
        match jsonSkipWs cs with
        | [] => Option.none
        | c :: rest =>
            if c = 'n' then
              if ['u', 'l', 'l'].isPrefixOf rest then
                some (.val .null, rest.drop 3)
              else Option.none
            else if c = 't' then
              if ['r', 'u', 'e'].isPrefixOf rest then
                some (.val (.bool true), rest.drop 3)
              else Option.none
            else if c = 'f' then
              if ['a', 'l', 's', 'e'].isPrefixOf rest then
                some (.val (.bool false), rest.drop 4)
              else Option.none
            else if c = '"' then
              match parseJString rest with
              | some r => some (.val (.str ⟨r.1⟩), r.2)
              | Option.none => Option.none
            else if c = '[' then
              match jsonSkipWs rest with
              | ']' :: rest2 => some (.val (.arr []), rest2)
              | cs2 =>
                  match parseJF fuel 1 cs2 with
                  | some (.items xs, rest2) => some (.val (.arr xs), rest2)
                  | _ => Option.none
            else if c = '\x7b' then
              match jsonSkipWs rest with
              | '\x7d' :: rest2 => some (.val (.obj []), rest2)
              | cs2 =>
                  match parseJF fuel 2 cs2 with
                  | some (.members ms, rest2) => some (.val (.obj ms), rest2)
                  | _ => Option.none
            else
              match parseJNumber (c :: rest) with
              | some r => some (.val (.num ⟨r.1⟩), r.2)
              | Option.none => Option.none
      else if mode = 1 then
        match parseJF fuel 0 cs with
        | some (.val j, rest) =>
            match jsonSkipWs rest with
            | ',' :: rest2 =>
                match parseJF fuel 1 rest2 with
                | some (.items xs, rest3) => some (.items (j :: xs), rest3)
                | _ => Option.none
            | ']' :: rest2 => some (.items [j], rest2)
            | _ => Option.none
        | _ => Option.none
      else
        match jsonSkipWs cs with
        | '"' :: rest =>
            match parseJString rest with
            | some kr =>
                match jsonSkipWs kr.2 with
                | ':' :: rest3 =>
                    match parseJF fuel 0 rest3 with
                    | some (.val v, rest4) =>
                        match jsonSkipWs rest4 with
                        | ',' :: rest5 =>
                            match parseJF fuel 2 rest5 with
                            | some (.members ms, rest6) =>
                                some (.members ((⟨kr.1⟩, v) :: ms), rest6)
                            | _ => Option.none
                        | '\x7d' :: rest5 => some (.members [(⟨kr.1⟩, v)], rest5)
                        | _ => Option.none
                    | _ => Option.none
                | _ => Option.none
            | Option.none => Option.none
        | _ => Option.none

/-- Embedding of `json.loads`: parse one JSON value and require only
whitespace after it. -/
def jsonLoads (s : String) : Option Json :=
  match parseJF (2 * s.data.length + 2) 0 s.data with
  | some (.val j, rest) =>
      if (jsonSkipWs rest).isEmpty then some j else Option.none
  | _ => Option.none

/-- Embedding of the per-row metadata handling of `Database.perform_search`
(lines 1389-1404): the `metadata` cell arrives from the driver as a
serialized string (or not at all); a missing or falsy (empty) value gives
the empty dict, a parse failure gives the empty dict, and otherwise the
parsed value is kept as is. -/
def processRowMetadata (cell : Option String) : Json :=
  match cell with
  | Option.none => Json.obj []
  | some s =>
      if s = "" then Json.obj []
      else
        match jsonLoads s with
        | some j => j
        | Option.none => Json.obj []

/-! ### Navigation alias generation (two independent copies in the source) -/

/-- Embedding of Python slicing `s[:n]`. -/
def strTake (s : String) (n : Nat) : String :=
  ⟨s.data.take n⟩

/-- Counter loop of `QueryParser._generate_unique_alias`: the `while` loop
searching the first free `f"\x7bbase_alias\x7d\x7bcounter\x7d"`; the fuel
`used.length + 1` always suffices (shown by `exists_free_counter`). -/
def qpAliasCounterLoop (baseAlias : String) (used : List String) :
    Nat → Nat → Nat
  | 0, counter => counter
  | fuel + 1, counter =>
      if baseAlias ++ Nat.repr counter ∈ used then
        qpAliasCounterLoop baseAlias used fuel (counter + 1)
      else counter

/-- Embedding of `QueryParser._generate_unique_alias`
(`gclql_query_parser.py` lines 605-621). -/
def qpGenerateUniqueAlias (entityKey : String) (usedAliases : List String) :
    String :=
  let baseAlias0 :=
    if entityKey.length > 3 then strTake entityKey 3 else entityKey
  let baseAlias1 :=
    if baseAlias0 ∈ usedAliases ∧ entityKey.length > 3 then strTake entityKey 4
    else baseAlias0
  if baseAlias1 ∈ usedAliases then
    baseAlias1 ++
      Nat.repr (qpAliasCounterLoop baseAlias1 usedAliases
        (usedAliases.length + 1) 1)
  else baseAlias1

/-- Counter loop of `Database._generate_unique_alias` (the second copy of the
same code, `storage/database.py` lines 248-264). -/
def dbAliasCounterLoop (baseAlias : String) (used : List String) :
    Nat → Nat → Nat
  | 0, counter => counter
  | fuel + 1, counter =>
      if baseAlias ++ Nat.repr counter ∈ used then
        dbAliasCounterLoop baseAlias used fuel (counter + 1)
      else counter

/-- Embedding of `Database._generate_unique_alias`. -/
def dbGenerateUniqueAlias (entityKey : String) (usedAliases : List String) :
    String :=
  let baseAlias0 :=
    if entityKey.length > 3 then strTake entityKey 3 else entityKey
  let baseAlias1 :=
    if baseAlias0 ∈ usedAliases ∧ entityKey.length > 3 then strTake entityKey 4
    else baseAlias0
  if baseAlias1 ∈ usedAliases then
    baseAlias1 ++
      Nat.repr (dbAliasCounterLoop baseAlias1 usedAliases
        (usedAliases.length + 1) 1)
  else baseAlias1

/-- Caller loop of `_build_navigation_aliases` / `_build_dynamic_joins`:
process the navigation keys in order, starting from the used-alias set
initialized with the reserved main alias, adding each produced alias. -/
def assignAliasesGo : List String → List String → List String × List String
  | [], used => ([], used)
  | key :: rest, used =>
      let al := qpGenerateUniqueAlias key used
      let r := assignAliasesGo rest (used ++ [al])
      (al :: r.1, r.2)

/-- The aliases assigned to a sequence of navigation keys (`d` reserved). -/
def assignAliases (keys : List String) : List String :=
  (assignAliasesGo keys ["d"]).1

/-- Numeric value of a decimal digit character (reasoning side, used to
invert `Nat.repr`). -/
def digitVal (c : Char) : Nat :=
  c.toNat - '0'.toNat

/-- Value of a decimal digit string. -/
def digitsVal (cs : List Char) : Nat :=
  cs.foldl (fun a c => a * 10 + digitVal c) 0

/-- Reference form of `Nat.repr`'s character list (reasoning side). -/
def repChars (n : Nat) : List Char :=
  if n < 10 then [Nat.digitChar n]
  else repChars (n / 10) ++ [Nat.digitChar (n % 10)]
decreasing_by
  exact Nat.div_lt_self (by omega) (by omega)

/-! ### SQL translator (`gclql_query_parser.py`) -/

/-- Embedding of Python `sep.join(xs)` (structural). -/
def strJoin (sep : String) : List String → String
  | [] => ""
  | [x] => x
  | x :: xs => x ++ sep ++ strJoin sep xs

/-- Embedding of Python `str(value)` for the values the query parser can
produce (strings, numbers, `None`; floats keep their literal). -/
def pyStr : PyVal → String
  | .none => "None"
  | .bool b => if b then "True" else "False"
  | .int n => if n < 0 then "-" ++ Nat.repr n.natAbs else Nat.repr n.natAbs
  | .float lit => lit
  | .str s => s
  | .list _ => "[...]"
  | .dict _ => "\x7b...\x7d"
  | .date y mo d h mi s =>
      Nat.repr y ++ "-" ++ Nat.repr mo ++ "-" ++ Nat.repr d ++ " " ++
        Nat.repr h ++ ":" ++ Nat.repr mi ++ ":" ++ Nat.repr s

/-- Embedding of `isinstance(value, int | float)` (Python `bool` is a
subclass of `int`). -/
def PyVal.isNum : PyVal → Bool
  | .int _ => true
  | .float _ => true
  | .bool _ => true
  | _ => false

/-- A parsed query field: a dotted path with at least one identifier (the
grammar guarantees non-emptiness, so the head is explicit). -/
structure QField where
  head : String
  rest : List String
deriving Repr, DecidableEq

/-- The hard-coded entity fields of `Field.to_sql`. -/
def entityFields : List String :=
  ["accelerator", "stage", "campaign", "detector", "software_stack"]

/-- The operators for which a numeric comparand forces a `::numeric` cast. -/
def castOps : List String :=
  ["=", "!=", ">", "<", ">=", "<=", ":"]

/-- Cast test of `Field.to_sql`: `value is not None and isinstance(value,
int | float) and op in (...)`. -/
def numericCastNeeded (value : PyVal) (op : Option String) : Bool :=
  !value.isNone && value.isNum &&
    (match op with
     | some o => castOps.contains o
     | Option.none => false)

/-- JSON access expression shared by `Field.to_sql`'s metadata branches:
`col->>'p'` for one part, `col->'p1'->…->>'pn'` for a nested path (callers
always pass a non-empty path). -/
def jsonFieldExpr (metadataColumn : String) (pathParts : List String) : String :=
  match pathParts with
  | [] => metadataColumn
  | [p] => metadataColumn ++ "->>'" ++ p ++ "'"
  | ps =>
      metadataColumn ++ "->" ++
        strJoin "->" (ps.dropLast.map (fun p => "'" ++ p ++ "'")) ++
        "->>'" ++ ((ps.getLast?).getD "") ++ "'"

/-- Common tail of `Field.to_sql` after `sql_column` is known: the explicit
`metadata.…` branch, else the column itself. -/
def fieldToSqlTail (baseField : String) (rest : List String)
    (sqlColumn : String) (value : PyVal) (op : Option String) : String :=
  if baseField == "metadata" && !rest.isEmpty then
    let jsonField := jsonFieldExpr sqlColumn rest
    if numericCastNeeded value op then "(" ++ jsonField ++ ")::numeric"
    else jsonField
  else sqlColumn

/-- Base field of `Field.to_sql`: `parts[0]` with a `_name` suffix stripped
(`base_field[-5:] == "_name"` is exactly the suffix test). -/
def baseFieldOf (f : QField) : String :=
  if strHasSuf "_name" f.head then
    (⟨f.head.data.take (f.head.data.length - 5)⟩ : String)
  else f.head

/-- Lookup `schema_mapping.get(base_field)`. -/
def sqlColumnOf? (schemaMapping : List (String × String))
    (baseField : String) : Option String :=
  (schemaMapping.find? (fun p => p.1 == baseField)).map Prod.snd

/-- Python falsiness of the looked-up column (`if not sql_column`). -/
def sqlColFalsy (schemaMapping : List (String × String))
    (baseField : String) : Bool :=
  match sqlColumnOf? schemaMapping baseField with
  | Option.none => true
  | some s => s == ""

/-- Metadata auto-detection branch of `Field.to_sql` (returns the JSON
expression directly, using all field parts). -/
def autoDetectField (schemaMapping : List (String × String)) (f : QField)
    (value : PyVal) (op : Option String) : String :=
  let metadataColumn := (sqlColumnOf? schemaMapping "metadata").getD "d.metadata"
  let jsonField := jsonFieldExpr metadataColumn (f.head :: f.rest)
  if numericCastNeeded value op then "(" ++ jsonField ++ ")::numeric"
  else jsonField

/-- Embedding of `Field.to_sql` (`gclql_query_parser.py` lines 78-158):
strip a `_name` suffix, look the base field up in the schema mapping; on a
missing or empty mapping try the hard-coded entity fields, then metadata
auto-detection (which returns the JSON expression directly), then fall
through to `d.<field>`; finally apply the explicit `metadata.…` branch. -/
def fieldToSql (schemaMapping : List (String × String)) (f : QField)
    (value : PyVal) (op : Option String)
    (availableMetadataFields : List String) : String :=
  if sqlColFalsy schemaMapping (baseFieldOf f) then
    if entityFields.contains (baseFieldOf f) then
      fieldToSqlTail (baseFieldOf f) f.rest ("d." ++ baseFieldOf f ++ "_id")
        value op
    else if availableMetadataFields.contains (baseFieldOf f) then
      autoDetectField schemaMapping f value op
    else fieldToSqlTail (baseFieldOf f) f.rest ("d." ++ baseFieldOf f) value op
  else
    fieldToSqlTail (baseFieldOf f) f.rest
      ((sqlColumnOf? schemaMapping (baseFieldOf f)).getD "") value op

/-- Strip of leading and trailing characters from a set, as Python
`s.strip("\"'")`. -/
def stripSet (cs : List Char) (bad : List Char) : List Char :=
  ((cs.dropWhile bad.contains).reverse.dropWhile bad.contains).reverse

/-- Fixed-width digit run parser used by the date formats. -/
def takeDigitRun (cs : List Char) : List Char × List Char :=
  (cs.takeWhile Char.isDigit, cs.dropWhile Char.isDigit)

/-- Embedding of `parse_date_string` (lines 44-71): strip surrounding
quotes, then accept `YYYY-MM-DD`, optionally followed by a space- or
`T`-separated `HH:MM` or `HH:MM:SS` (the union of the five `strptime`
formats; the zero-padding looseness of `strptime` for sub-year fields is
kept by accepting one- or two-digit runs). -/
def parseDateString (dateStr : String) : Option PyVal :=
  let cs := stripSet dateStr.data ['"', '\'']
  let yr := takeDigitRun cs
  if yr.1.length ≠ 4 then Option.none
  else
    match yr.2 with
    | '-' :: cs2 =>
        let mr := takeDigitRun cs2
        if mr.1.length < 1 || mr.1.length > 2 ||
            digitsVal mr.1 < 1 || digitsVal mr.1 > 12 then Option.none
        else
          match mr.2 with
          | '-' :: cs3 =>
              let dr := takeDigitRun cs3
              if dr.1.length < 1 || dr.1.length > 2 ||
                  digitsVal dr.1 < 1 || digitsVal dr.1 > 31 then Option.none
              else
                match dr.2 with
                | [] =>
                    some (.date (digitsVal yr.1) (digitsVal mr.1)
                      (digitsVal dr.1) 0 0 0)
                | sep :: cs4 =>
                    if sep ≠ ' ' && sep ≠ 'T' then Option.none
                    else
                      let hr := takeDigitRun cs4
                      if hr.1.length < 1 || hr.1.length > 2 ||
                          digitsVal hr.1 > 23 then Option.none
                      else
                        match hr.2 with
                        | ':' :: cs5 =>
                            let mir := takeDigitRun cs5
                            if mir.1.length < 1 || mir.1.length > 2 ||
                                digitsVal mir.1 > 59 then Option.none
                            else
                              match mir.2 with
                              | [] =>
                                  some (.date (digitsVal yr.1)
                                    (digitsVal mr.1) (digitsVal dr.1)
                                    (digitsVal hr.1) (digitsVal mir.1) 0)
                              | ':' :: cs6 =>
                                  let sr := takeDigitRun cs6
                                  if sr.1.length < 1 || sr.1.length > 2 ||
                                      digitsVal sr.1 > 61 ||
                                      !sr.2.isEmpty then Option.none
                                  else
                                    some (.date (digitsVal yr.1)
                                      (digitsVal mr.1) (digitsVal dr.1)
                                      (digitsVal hr.1) (digitsVal mir.1)
                                      (digitsVal sr.1))
                              | _ => Option.none
                        | _ => Option.none
          | _ => Option.none
    | _ => Option.none

/-- Embedding of `Database._create_base_mapping` (lines 202-211): the base
schema mapping fed to the translator (the main table's own columns;
`created_at` and `last_edited_at` are its two timestamp columns per the
data model and the dataset model's `created_at: datetime` field). -/
def createBaseMapping (primaryKeyColumn : String) : List (String × String) :=
  [("name", "d.name"),
   ("metadata", "d.metadata"),
   ("metadata_text", "jsonb_values_to_text(d.metadata)"),
   (primaryKeyColumn, "d." ++ primaryKeyColumn),
   ("created_at", "d.created_at"),
   ("last_edited_at", "d.last_edited_at")]

/-- The query AST (`Comparison | GlobalSearch | Not | And | Or`). -/
inductive AstNode where
  | comparison (field : QField) (op : String) (value : PyVal)
  | globalSearch (value : String) (isQuoted : Bool)
  | notNode (term : AstNode)
  | andNode (left right : AstNode)
  | orNode (left right : AstNode)
deriving Repr

/-- The translator's per-invocation state (`SqlTranslator.__init__`). -/
structure Translator where
  schemaMapping : List (String × String)
  globalSearchFields : List String
  availableMetadataFields : List String
  params : List PyVal
  paramIndex : Nat
deriving Repr

/-- Embedding of `SqlTranslator.reset`: install the mappings (keeping the
previous global-search fields or metadata fields when `None` is passed)
and zero the parameter list and counter. -/
def Translator.reset (t : Translator) (schemaMapping : List (String × String))
    (globalSearchFields : Option (List String))
    (availableMetadataFields : Option (List String)) : Translator :=
  { schemaMapping := schemaMapping
    globalSearchFields := globalSearchFields.getD t.globalSearchFields
    availableMetadataFields :=
      availableMetadataFields.getD t.availableMetadataFields
    params := []
    paramIndex := 0 }

/-- The operators whose string comparand is parsed as a date for
`last_edited_at` (`op in ("=", "!=", ">", "<", ">=", "<=")`). -/
def dateOps : List String :=
  ["=", "!=", ">", "<", ">=", "<="]

/-- The operators that get the NULL-excluding wrapper on `last_edited_at`. -/
def nullWrapOps : List String :=
  [">", "<", ">=", "<=", "!="]

/-- Embedding of `SqlTranslator._translate_field_exists` (lines 365-401). -/
def translateFieldExists (t : Translator) (f : QField) (sqlField : String) :
    String × Translator :=
  if (f.head == "metadata" && !f.rest.isEmpty) ||
      t.availableMetadataFields.contains f.head then
    let jsonPath :=
      if t.availableMetadataFields.contains f.head then f.head :: f.rest
      else f.rest
    if jsonPath.length == 1 then
      let pi1 := t.paramIndex + 1
      let placeholder := "$" ++ Nat.repr pi1
      ("d.metadata ? " ++ placeholder,
        { t with
          paramIndex := pi1
          params := t.params ++ [PyVal.str (jsonPath.headD "")] })
    else
      let pi1 := t.paramIndex + 1
      let placeholder := "$" ++ Nat.repr pi1
      ("jsonb_path_exists(d.metadata, " ++ placeholder ++ ")",
        { t with
          paramIndex := pi1
          params := t.params ++
            [PyVal.str ("$." ++ strJoin "." jsonPath)] })
  else (sqlField ++ " IS NOT NULL", t)

/-- SQL operator and parameter value chosen by `_translate_comparison` for a
non-empty comparison: `:` becomes `ILIKE` with a `%`-wrapped value, `=~`
and `!~` the case-insensitive regex operators, the rest pass through. -/
def comparisonOpValue (op : String) (value : PyVal) : String × PyVal :=
  if op == ":" then ("ILIKE", PyVal.str ("%" ++ pyStr value ++ "%"))
  else if op == "=" then ("=", value)
  else if op == "=~" then ("~*", value)
  else if op == "!~" then ("!~*", value)
  else (op, value)

/-- Date coercion of `_translate_comparison`: a string comparand against
`last_edited_at` under an ordering/equality operator is parsed to a
datetime when possible, left a string otherwise. -/
def comparisonParamValue (isLastEditedAt : Bool) (op : String)
    (v : PyVal) : PyVal :=
  match v with
  | PyVal.str s =>
      if isLastEditedAt && dateOps.contains op then
        (parseDateString s).getD (PyVal.str s)
      else PyVal.str s
  | v => v

/-- Embedding of `SqlTranslator._translate_comparison` (lines 300-363),
including the `last_edited_at` empty-value branch that backs the
allocated placeholder out again. -/
def translateComparison (t : Translator) (f : QField) (op : String)
    (value : PyVal) : String × Translator :=
  let sqlField :=
    fieldToSql t.schemaMapping f value (some op) t.availableMetadataFields
  if op == ":" && pyEqStr value "*" then translateFieldExists t f sqlField
  else
    let isLastEditedAt :=
      f.head == "last_edited_at" || strHasSuf "last_edited_at" sqlField
    let pi1 := t.paramIndex + 1
    let placeholder := "$" ++ Nat.repr pi1
    if op == ":" && isLastEditedAt &&
        (pyEqStr value "" || value.isNone) then
      (sqlField ++ " IS NOT NULL", t)
    else
      let sqlOpValue := comparisonOpValue op value
      let paramValue := comparisonParamValue isLastEditedAt op sqlOpValue.2
      let t' := { t with paramIndex := pi1, params := t.params ++ [paramValue] }
      if isLastEditedAt && nullWrapOps.contains op then
        ("(" ++ sqlField ++ " IS NOT NULL AND " ++ sqlField ++ " " ++
          sqlOpValue.1 ++ " " ++ placeholder ++ ")", t')
      else (sqlField ++ " " ++ sqlOpValue.1 ++ " " ++ placeholder, t')

/-- Embedding of `SqlTranslator._build_search_condition` (lines 427-451). -/
def buildSearchCondition (fieldName placeholder : String) (isQuoted : Bool) :
    String :=
  if isQuoted then
    fieldName ++ " ILIKE '%' || " ++ placeholder ++ " || '%'"
  else if fieldName == "jsonb_values_to_text(d.metadata)" then
    "word_similarity(" ++ placeholder ++ ", " ++ fieldName ++ ") > 0.4"
  else "similarity(" ++ placeholder ++ ", " ++ fieldName ++ ") > 0.6"

/-- Embedding of `SqlTranslator._build_global_search_clause` (lines
453-488): one shared placeholder across all OR'd field conditions
(returned with the clause; empty when no placeholder was used). -/
def buildGlobalSearchClause (searchTerm : String) (isQuoted : Bool)
    (fieldList : List String) (paramOffset : Nat) : String × String :=
  if pyStrip searchTerm == "" then ("TRUE", "")
  else
    let placeholder := "$" ++ Nat.repr (paramOffset + 1)
    let conditions :=
      fieldList.map (fun fn => buildSearchCondition fn placeholder isQuoted)
    if conditions.isEmpty then ("TRUE", "")
    else ("(" ++ strJoin " OR " conditions ++ ")", placeholder)

/-- Embedding of `SqlTranslator._translate_global_search` (lines 403-425). -/
def translateGlobalSearch (t : Translator) (value : String)
    (isQuoted : Bool) : String × Translator :=
  if pyStrip value == "*" || pyStrip value == "" then ("TRUE", t)
  else
    let searchValue := pyStrip value
    let r := buildGlobalSearchClause searchValue isQuoted
      t.globalSearchFields t.paramIndex
    if r.2 ≠ "" then
      (r.1, { t with
        paramIndex := t.paramIndex + 1
        params := t.params ++ [PyVal.str searchValue] })
    else (r.1, t)

/-- Embedding of `SqlTranslator.translate` (lines 287-298). -/
def translate (t : Translator) : AstNode → String × Translator
  | .comparison f op v => translateComparison t f op v
  | .globalSearch v q => translateGlobalSearch t v q
  | .notNode n =>
      let r := translate t n
      ("NOT (" ++ r.1 ++ ")", r.2)
  | .andNode l r =>
      let lr := translate t l
      let rr := translate lr.2 r
      ("(" ++ lr.1 ++ " AND " ++ rr.1 ++ ")", rr.2)
  | .orNode l r =>
      let lr := translate t l
      let rr := translate lr.2 r
      ("(" ++ lr.1 ++ " OR " ++ rr.1 ++ ")", rr.2)

/-! ### Placeholder extraction (reasoning side, for the translator claims) -/

/-- Scanner state machine over a SQL string: after a `$`, accumulate decimal
digits into the current placeholder index; emit it when the number ends. -/
def phScanAux : List Char → Option Nat → List Nat
  | [], some n => [n]
  | [], Option.none => []
  | c :: rest, some n =>
      if c.isDigit then phScanAux rest (some (n * 10 + digitVal c))
      else if c = '$' then n :: phScanAux rest (some 0)
      else n :: phScanAux rest Option.none
  | c :: rest, Option.none =>
      if c = '$' then phScanAux rest (some 0)
      else phScanAux rest Option.none

/-- The indices of all `$n` placeholder occurrences of a SQL string, in
textual order. -/
def phScan (s : String) : List Nat :=
  phScanAux s.data Option.none

/-- First-occurrence deduplication: the order in which distinct placeholders
are introduced. -/
def firstDedup : List Nat → List Nat
  | [] => []
  | a :: l => a :: (firstDedup l).filter (fun x => x ≠ a)

/-- Does a fragment start with a non-digit (so a placeholder number ending
right before it is not extended)? -/
def headNotDigit : List Char → Bool
  | [] => true
  | c :: _ => !c.isDigit

/-- Does the string avoid the placeholder marker `$`? (Schema-derived SQL
fragments do; the scanner then finds exactly the placeholders.) -/
def strNoDollar (s : String) : Bool :=
  !s.data.contains '$'

/-- Cleanliness of the translator configuration: no `$` inside schema-mapping
columns or global-search fields. -/
def translatorClean (t : Translator) : Bool :=
  t.schemaMapping.all (fun p => strNoDollar p.2) &&
    t.globalSearchFields.all strNoDollar

/-- Cleanliness of an AST: field identifiers and operators contain no `$`
(the grammar's IDENT and OP tokens never do). -/
def astClean : AstNode → Bool
  | .comparison f op _ =>
      strNoDollar f.head && f.rest.all strNoDollar && strNoDollar op
  | .globalSearch _ _ => true
  | .notNode n => astClean n
  | .andNode l r => astClean l && astClean r
  | .orNode l r => astClean l && astClean r

/-! ### Hybrid rescue (`QueryParser._build_hybrid_search_clause`) -/

/-- Does a match of `re.split`'s separator pattern `\s+AND\s+`
(`re.IGNORECASE`) start exactly here: a maximal non-empty whitespace run, a
case-insensitive `AND`, then another non-empty maximal whitespace run?
Returns the remainder after the separator. (The character classes `\s` and
`[ANDand]` are disjoint, so the greedy runs make the match unambiguous.) -/
def matchSepAt (cs : List Char) : Option (List Char) :=
  let ws1 := cs.takeWhile pyIsSpace
  let cs1 := cs.dropWhile pyIsSpace
  if ws1.isEmpty then Option.none
  else
    match cs1 with
    | a :: n :: d :: cs2 =>
        if (a == 'A' || a == 'a') && (n == 'N' || n == 'n') &&
            (d == 'D' || d == 'd') then
          let ws2 := cs2.takeWhile pyIsSpace
          if ws2.isEmpty then Option.none
          else some (cs2.dropWhile pyIsSpace)
        else Option.none
    | _ => Option.none

/-- Fueled scanner for `re.split(r"\s+AND\s+", s, flags=re.IGNORECASE)`:
each step consumes at least one character, so the string length is enough
fuel. -/
def splitAndF : Nat → List Char → List Char → List String
  | 0, cs, acc => [⟨acc.reverse ++ cs⟩]
  | _ + 1, [], acc => [⟨acc.reverse⟩]
  | fuel + 1, c :: cs, acc =>
      match matchSepAt (c :: cs) with
      | some rest => (⟨acc.reverse⟩ : String) :: splitAndF fuel rest []
      | Option.none => splitAndF fuel cs (c :: acc)

/-- `re.split(r"\s+AND\s+", s, flags=re.IGNORECASE)` (line 714). -/
def reSplitAnd (s : String) : List String :=
  splitAndF (s.data.length + 1) s.data []

/-- A `"` or `'` character (the delimiters of the quoted-span pattern). -/
def isQuoteChar (c : Char) : Bool :=
  c == '"' || c.toNat == 39

/-- State machine for the existence of a match of the quoted-span pattern
`["\']([^"\']+)["\']`: state 0 = no opening delimiter yet, 1 = opening
delimiter with still-empty content, 2 = opening delimiter plus non-empty
quote-free content. -/
def quotedScan : List Char → Nat → Bool
  | [], _ => false
  | c :: cs, st =>
      if isQuoteChar c then
        if st == 2 then true else quotedScan cs 1
      else quotedScan cs (if st == 0 then 0 else 2)

/-- `len(re.findall(r'["\']([^"\']+)["\']', s)) > 0` (lines 754-755). -/
def hasQuotedSpan (s : String) : Bool :=
  quotedScan s.data 0

/-- The per-part loop of `_build_hybrid_search_clause` (lines 723-741):
strip each part, skip empties, parse-and-translate the good ones through
the shared translator, and collect the still-failing (stripped) parts in
order. The part parser (Lark grammar plus AST transformer) enters as an
oracle `parse`. -/
def hybridLoop (parse : String → Option AstNode) :
    List String → Translator → List String → List String →
    Translator × List String × List String
  | [], t, vcs, fts => (t, vcs, fts)
  | p :: rest, t, vcs, fts =>
      if pyStrip p == "" then hybridLoop parse rest t vcs fts
      else
        match parse (pyStrip p) with
        | some ast =>
            hybridLoop parse rest (translate t ast).2
              (vcs ++ [(translate t ast).1]) fts
        | Option.none => hybridLoop parse rest t vcs (fts ++ [pyStrip p])

/-- The tail of `_build_hybrid_search_clause` (lines 743-777): fuse the
still-failing parts into one fuzzy global-search clause (bound as one extra
parameter), and AND-join whatever clauses were produced, defaulting to
`TRUE`. -/
def hybridCombine (gsf : List String) (queryString : String)
    (vcs fts : List String) (allParams : List PyVal) :
    String × List PyVal :=
  let fz :=
    if fts.isEmpty then (vcs, allParams)
    else
      let fuzzyPhrase := pyStrip (strJoin " " fts)
      let fuzzyClause := (buildGlobalSearchClause fuzzyPhrase
        (hasQuotedSpan queryString) gsf allParams.length).1
      let allParams' := allParams ++ [PyVal.str fuzzyPhrase]
      if fuzzyClause != "TRUE" then (vcs ++ [fuzzyClause], allParams')
      else (vcs, allParams')
  if fz.1.isEmpty then ("TRUE", fz.2)
  else ("(" ++ strJoin " AND " fz.1 ++ ")", fz.2)

/-- Embedding of `QueryParser._build_hybrid_search_clause` (lines 706-777):
split on AND, rescue the parseable parts through the shared translator, and
combine with the fuzzy residue. -/
def buildHybridSearchClause (parse : String → Option AstNode)
    (sm : List (String × String)) (gsf : List String)
    (t : Translator) (queryString : String) : String × List PyVal :=
  let r := hybridLoop parse (reSplitAnd queryString)
    (t.reset sm (some gsf) Option.none) [] []
  hybridCombine gsf queryString r.2.1 r.2.2 r.1.params

/-- The clause list as the specification sentence describes it (spec-side
definition, written from the claim's words): the successful clauses in
order, then — whenever some parts still fail — one residue clause treating
the failed parts joined back with single spaces as a single global-search
value whose is_quoted flag is set exactly when the original input contains
a quoted span. -/
def specHybridAllClauses (gsf : List String) (queryString : String)
    (vcs fts : List String) (paramIndex : Nat) : List String :=
  if fts.isEmpty then vcs
  else vcs ++ [(buildGlobalSearchClause (strJoin " " fts)
    (hasQuotedSpan queryString) gsf paramIndex).1]

/-- The hybrid WHERE clause as the specification sentence describes it:
the AND-join of all produced clauses, or the literal `TRUE` when no clause
at all was produced. -/
def specHybridWhere (parse : String → Option AstNode)
    (sm : List (String × String)) (gsf : List String)
    (t : Translator) (queryString : String) : String :=
  let r := hybridLoop parse (reSplitAnd queryString)
    (t.reset sm (some gsf) Option.none) [] []
  let allClauses := specHybridAllClauses gsf queryString r.2.1 r.2.2
    r.1.params.length
  if allClauses.isEmpty then "TRUE"
  else "(" ++ strJoin " AND " allClauses ++ ")"

/-- Key `k` may be overwritten by the ingestion merge: it is itself a lock
sentinel, or its sentinel is not currently truthy in the existing metadata. -/
def mergeAllowsKey (existing : PyDict) (k : String) : Bool :=
  isLockFieldKey k || !(dictGetD existing (lockFieldName k) (.bool false)).truthy

/-!
Theorems. Each claim of the specification gets one theorem below
(plus a witness or counterexample where required); shared helper
lemmas come first.
-/

theorem dictGet?_set_self (d : PyDict) (k : String) (v : PyVal) :
    dictGet? (dictSet d k v) k = some v := by
  induction d with
  | nil => simp [dictSet, dictGet?]
  | cons kv rest ih =>
      obtain ⟨k', v'⟩ := kv
      by_cases h : k' = k
      · subst h; simp [dictSet, dictGet?]
      · simp [dictSet, dictGet?, h, ih]

theorem dictGet?_set_other (d : PyDict) (k k' : String) (v : PyVal)
    (h : k' ≠ k) : dictGet? (dictSet d k v) k' = dictGet? d k' := by
  have hkk : k ≠ k' := Ne.symm h
  induction d with
  | nil => simp [dictSet, dictGet?, hkk]
  | cons kv rest ih =>
      obtain ⟨k0, v0⟩ := kv
      by_cases h0 : k0 = k
      · subst h0
        simp only [dictSet, if_pos rfl, dictGet?]
        rw [if_neg hkk, if_neg hkk]
      · simp only [dictSet, if_neg h0, dictGet?]
        by_cases h1 : k0 = k'
        · simp [h1]
        · simp [h1, ih]

theorem dictGet?_eq_none_of_not_mem (d : PyDict) (k : String)
    (h : k ∉ d.map Prod.fst) : dictGet? d k = Option.none := by
  induction d with
  | nil => rfl
  | cons kv rest ih =>
      obtain ⟨k0, v0⟩ := kv
      simp only [List.map_cons, List.mem_cons, not_or] at h
      simp only [dictGet?, if_neg (Ne.symm h.1)]
      exact ih h.2

theorem mergeRespecting_go (existing : PyDict) (newMeta : PyDict) :
    ∀ (merged : PyDict) (k : String), (newMeta.map Prod.fst).Nodup →
      dictGet? (newMeta.foldl (mergeRespectStep existing) merged) k =
        (if dictHasKey newMeta k && mergeAllowsKey existing k
         then dictGet? newMeta k else dictGet? merged k) := by
  induction newMeta with
  | nil => intro merged k _; simp [dictHasKey, dictGet?]
  | cons kv rest ih =>
      intro merged k hnd
      obtain ⟨k', v⟩ := kv
      simp only [List.map_cons, List.nodup_cons] at hnd
      obtain ⟨hknotin, hndrest⟩ := hnd
      simp only [List.foldl_cons]
      rw [ih _ k hndrest]
      by_cases hk : k' = k
      · subst hk
        have hrest : dictHasKey rest k' = false := by
          unfold dictHasKey
          rw [dictGet?_eq_none_of_not_mem rest k' hknotin]
          rfl
        have hhead : dictHasKey ((k', v) :: rest) k' = true := by
          simp [dictHasKey, dictGet?]
        have hgethead : dictGet? ((k', v) :: rest) k' = some v := by
          simp [dictGet?]
        rw [hrest, hhead, hgethead]
        simp only [Bool.false_and, Bool.true_and]
        rw [if_neg (fun h => Bool.false_ne_true h)]
        unfold mergeRespectStep mergeAllowsKey
        by_cases hlock : isLockFieldKey k' = true
        · simp [hlock, dictGet?_set_self]
        · simp only [Bool.not_eq_true] at hlock
          by_cases hlkd :
              (dictGetD existing (lockFieldName k') (.bool false)).truthy = true
          · simp [hlock, hlkd]
          · simp only [Bool.not_eq_true] at hlkd
            simp [hlock, hlkd, dictGet?_set_self]
      · have h1 : dictHasKey ((k', v) :: rest) k = dictHasKey rest k := by
          simp [dictHasKey, dictGet?, hk]
        have h2 : dictGet? ((k', v) :: rest) k = dictGet? rest k := by
          simp [dictGet?, hk]
        rw [h1, h2]
        have h3 : dictGet? (mergeRespectStep existing merged (k', v)) k =
            dictGet? merged k := by
          unfold mergeRespectStep
          have hne : k ≠ k' := Ne.symm hk
          by_cases hlock : isLockFieldKey k' = true
          · simp [hlock, dictGet?_set_other _ _ _ _ hne]
          · simp only [Bool.not_eq_true] at hlock
            by_cases hlkd :
                (dictGetD existing (lockFieldName k') (.bool false)).truthy = true
            · simp [hlock, hlkd]
            · simp only [Bool.not_eq_true] at hlkd
              simp [hlock, hlkd, dictGet?_set_other _ _ _ _ hne]
        rw [h3]

/-- C1 (counterexample): upserting new metadata that sets the lock sentinel
`__x__lock__` to `null` does not remove the sentinel from the merged
metadata, contradicting the claim that a `null` value removes the sentinel
entirely: the ingestion merge keeps the key, bound to `null`. -/
theorem C1_counterexample_null_keeps_sentinel :
    dictHasKey
        (mergeMetadataRespectingLocks [("__x__lock__", PyVal.bool true)]
          [("__x__lock__", PyVal.none)]) "__x__lock__" = true ∧
      dictGet?
          (mergeMetadataRespectingLocks [("__x__lock__", PyVal.bool true)]
            [("__x__lock__", PyVal.none)]) "__x__lock__" = some PyVal.none := by
  constructor <;> rfl

/-- C1 (amended): during an ingestion upsert, for each key of the new
metadata a lock-sentinel key is assigned its new value unconditionally —
`null` disables the lock for later merges but the sentinel key stays
present with value `null`, it is not removed — while a non-sentinel key
whose sentinel is currently truthy in the existing metadata is skipped
(the existing binding is kept) and is assigned otherwise; keys absent
from the new metadata, in particular all existing lock sentinels, keep
their existing binding and stay present. -/
theorem C1_merge_respecting_locks_characterized
    (existing newMeta : PyDict) (k : String)
    (hnd : (newMeta.map Prod.fst).Nodup) :
    dictGet? (mergeMetadataRespectingLocks existing newMeta) k =
        (if dictHasKey newMeta k && mergeAllowsKey existing k
         then dictGet? newMeta k else dictGet? existing k) ∧
      (dictHasKey existing k = true →
        dictHasKey (mergeMetadataRespectingLocks existing newMeta) k = true) := by
  have hgo := mergeRespecting_go existing newMeta existing k hnd
  unfold mergeMetadataRespectingLocks
  refine ⟨hgo, ?_⟩
  intro hex
  unfold dictHasKey at hex ⊢
  rw [hgo]
  by_cases hc : (dictHasKey newMeta k && mergeAllowsKey existing k) = true
  · rw [if_pos hc]
    have := (Bool.and_eq_true _ _).mp hc
    unfold dictHasKey at this
    exact this.1
  · rw [if_neg hc]; exact hex

theorem filterSome_add_filterNone_length (l : List (Option String)) :
    (l.filter Option.isSome).length + (l.filter Option.isNone).length =
      l.length := by
  induction l with
  | nil => rfl
  | cons a t ih =>
      cases a <;> simp [List.filter, Option.isSome, Option.isNone] <;> omega

/-- C6: the ingestion batch is atomic — the import raises (rolling the whole
transaction back) exactly when the batch is non-empty and strictly more
than half of its records failed; otherwise it commits all successful
records, including when up to half of the records failed. -/
theorem C6_batch_import_atomicity (outcomes : List (Option String))
    (initialRows : List String) :
    importFccDict outcomes initialRows =
      (if outcomes ≠ [] ∧
          2 * (processDatasetCollection outcomes).2 > outcomes.length
       then Except.error "BatchImportError"
       else Except.ok (initialRows ++ outcomes.filterMap id)) := by
  have hsum := filterSome_add_filterNone_length outcomes
  unfold importFccDict validateImportSuccess processDatasetCollection
  simp only []
  by_cases hc : outcomes ≠ [] ∧
      2 * (outcomes.filter Option.isNone).length > outcomes.length
  · have h1 : (outcomes.filter Option.isSome).length +
        (outcomes.filter Option.isNone).length > 0 := by
      rw [hsum]; exact List.length_pos.mpr hc.1
    have h2 : 2 * (outcomes.filter Option.isNone).length >
        (outcomes.filter Option.isSome).length +
          (outcomes.filter Option.isNone).length := by
      rw [hsum]; exact hc.2
    rw [if_pos (by simp [h1, h2]),
      if_pos (by exact ⟨hc.1, by simpa [processDatasetCollection] using hc.2⟩)]
  · push_neg at hc
    by_cases hnil : outcomes = []
    · subst hnil
      simp [processDatasetCollection]
    · have h2 : ¬ (2 * (outcomes.filter Option.isNone).length >
          outcomes.length) := by
        intro h; exact absurd (hc hnil) (by omega)
      have hcond : ((outcomes.filter Option.isSome).length +
            (outcomes.filter Option.isNone).length > 0 ∧
          2 * (outcomes.filter Option.isNone).length >
            (outcomes.filter Option.isSome).length +
              (outcomes.filter Option.isNone).length) → False := by
        intro h; rw [hsum] at h; exact h2 h.2
      rw [if_neg (by simpa using hcond),
        if_neg (by intro h; exact h2 (by simpa [processDatasetCollection] using h.2))]

theorem tablesGet_nil (t : String) : tablesGet [] t = [] := rfl

theorem tablesGet_cons (t0 : String) (rs0 : List EntityRow)
    (rest : List (String × List EntityRow)) (t : String) :
    tablesGet ((t0, rs0) :: rest) t =
      (if t0 = t then rs0 else tablesGet rest t) := by
  by_cases hbe : t0 = t
  · have hb : (t0 == t) = true := beq_iff_eq.mpr hbe
    simp [tablesGet, List.find?, hb, hbe]
  · have hb : (t0 == t) = false := beq_eq_false_iff_ne.mpr hbe
    simp [tablesGet, List.find?, hb, hbe]

theorem tablesGet_setTable_other (tbls : List (String × List EntityRow))
    (table t : String) (rows : List EntityRow) (h : t ≠ table) :
    tablesGet (storeSetTable tbls table rows) t = tablesGet tbls t := by
  induction tbls with
  | nil =>
      show tablesGet [(table, rows)] t = tablesGet [] t
      rw [tablesGet_cons, if_neg (Ne.symm h), tablesGet_nil]
  | cons p rest ih =>
      obtain ⟨t0, rs0⟩ := p
      by_cases h0 : t0 = table
      · subst h0
        rw [show storeSetTable ((t0, rs0) :: rest) t0 rows =
            (t0, rows) :: rest by simp [storeSetTable]]
        rw [tablesGet_cons, tablesGet_cons, if_neg (fun hc => h hc.symm),
          if_neg (fun hc => h hc.symm)]
      · rw [show storeSetTable ((t0, rs0) :: rest) table rows =
            (t0, rs0) :: storeSetTable rest table rows by
          simp [storeSetTable, h0]]
        rw [tablesGet_cons, tablesGet_cons]
        by_cases h1 : t0 = t
        · simp [h1]
        · rw [if_neg h1, if_neg h1, ih]

theorem getOrCreateEntity_preserves (store : EntityStore)
    (table name t : String) (extra : List (String × Nat)) (h : t ≠ table) :
    storeTable (getOrCreateEntity store table name extra).2 t =
      storeTable store t := by
  unfold getOrCreateEntity
  cases hf : (storeTable store table).find?
      (fun e => strLower e.name == strLower name) with
  | some e => rfl
  | none =>
      simp only [storeTable]
      exact tablesGet_setTable_other _ _ _ _ h

theorem createStage_preserves (store : EntityStore) (pc : PathComponents)
    (t : String) (h : t ≠ "stages") :
    storeTable (createStage store pc).2 t = storeTable store t := by
  unfold createStage
  cases pc.stageName with
  | none => rfl
  | some nm =>
      by_cases hc : (nm != "" && pyStrip nm != "") = true
      · simp only [hc, if_pos rfl]
        exact getOrCreateEntity_preserves _ _ _ _ _ h
      · simp only [Bool.not_eq_true] at hc
        simp [hc]

theorem createCampaign_preserves (store : EntityStore) (pc : PathComponents)
    (t : String) (h : t ≠ "campaigns") :
    storeTable (createCampaign store pc).2 t = storeTable store t := by
  unfold createCampaign
  cases pc.campaignName with
  | none => rfl
  | some nm =>
      by_cases hc : (nm != "" && pyStrip nm != "") = true
      · simp only [hc, if_pos rfl]
        exact getOrCreateEntity_preserves _ _ _ _ _ h
      · simp only [Bool.not_eq_true] at hc
        simp [hc]

theorem createAccelerator_not_present (store : EntityStore)
    (pc : PathComponents) (h : namePresent pc.acceleratorName = false) :
    createAccelerator store pc = (Option.none, store) := by
  unfold createAccelerator
  unfold namePresent at h
  cases hn : pc.acceleratorName with
  | none => rfl
  | some nm =>
      rw [hn] at h
      simp at h ⊢
      exact h

/-- C10 (implicit): during ingestion the detector entity is resolved or
created only under an already-resolved accelerator: for every record whose
path yields a non-empty detector segment but no usable accelerator
segment, the detector foreign key stays NULL and the detectors table is
left untouched. -/
theorem C10_detector_requires_accelerator (path : String)
    (store : EntityStore)
    (_hdet : namePresent (parsePathComponents path).detectorName = true)
    (hacc : namePresent (parsePathComponents path).acceleratorName = false) :
    (createEntitiesFromPathComponents store
        (parsePathComponents path)).1.detectorId = Option.none ∧
      storeTable (createEntitiesFromPathComponents store
          (parsePathComponents path)).2 "detectors" =
        storeTable store "detectors" := by
  unfold createEntitiesFromPathComponents
  rw [createAccelerator_not_present store _ hacc]
  simp only []
  have hdetstep : ∀ s : EntityStore,
      createDetector s (parsePathComponents path) Option.none =
        (Option.none, s) := by
    intro s
    unfold createDetector
    cases hd : (parsePathComponents path).detectorName with
    | none => rfl
    | some nm => simp [optTruthy]
  rw [hdetstep]
  refine ⟨rfl, ?_⟩
  rw [createCampaign_preserves _ _ _ (by decide),
    createStage_preserves _ _ _ (by decide)]

/-- C10 witness: a path with a detector segment at position 8 but a blank
accelerator segment at position 4 (a doubled slash makes the segment
empty, pathlib collapses it — here position 4 is present but whitespace). -/
theorem C10_detector_requires_accelerator_witness :
    namePresent (parsePathComponents "/a/b/c/ /EE/StageA/Camp1/Det1").detectorName
        = true ∧
      namePresent (parsePathComponents "/a/b/c/ /EE/StageA/Camp1/Det1").acceleratorName
        = false ∧
      (createEntitiesFromPathComponents ⟨[], 1⟩
          (parsePathComponents "/a/b/c/ /EE/StageA/Camp1/Det1")).1.detectorId =
        Option.none := by
  refine ⟨by decide, by decide, ?_⟩
  exact (C10_detector_requires_accelerator "/a/b/c/ /EE/StageA/Camp1/Det1"
    ⟨[], 1⟩ (by decide) (by decide)).1

theorem createStage_name_none (s : EntityStore) (pc : PathComponents)
    (h : pc.stageName = Option.none) : createStage s pc = (Option.none, s) := by
  unfold createStage; rw [h]

theorem createCampaign_name_none (s : EntityStore) (pc : PathComponents)
    (h : pc.campaignName = Option.none) :
    createCampaign s pc = (Option.none, s) := by
  unfold createCampaign; rw [h]

theorem createDetector_name_none (s : EntityStore) (pc : PathComponents)
    (accId : Option Nat) (h : pc.detectorName = Option.none) :
    createDetector s pc accId = (Option.none, s) := by
  unfold createDetector; rw [h]

/-- C7 (amended): path parsing during ingestion takes position 4 of
`Path(path).parts` as the accelerator name, position 6 with every
occurrence of the substring `Events` removed (not only a trailing one) as
the stage name, position 7 as the campaign name and position 8 as the
detector name; a missing position leaves the corresponding foreign key
NULL while the remaining entities are still resolved. -/
theorem C7_path_position_mapping (path : String) (store : EntityStore) :
    (parsePathComponents path).acceleratorName = (pathParts path)[4]? ∧
      (parsePathComponents path).stageName =
        ((pathParts path)[6]?).map (fun s => pyReplace s "Events" "") ∧
      (parsePathComponents path).campaignName = (pathParts path)[7]? ∧
      (parsePathComponents path).detectorName = (pathParts path)[8]? ∧
      ((pathParts path).length ≤ 4 →
        (createEntitiesFromPathComponents store
            (parsePathComponents path)).1.acceleratorId = Option.none) ∧
      ((pathParts path).length ≤ 6 →
        (createEntitiesFromPathComponents store
            (parsePathComponents path)).1.stageId = Option.none) ∧
      ((pathParts path).length ≤ 7 →
        (createEntitiesFromPathComponents store
            (parsePathComponents path)).1.campaignId = Option.none) ∧
      ((pathParts path).length ≤ 8 →
        (createEntitiesFromPathComponents store
            (parsePathComponents path)).1.detectorId = Option.none) := by
  refine ⟨rfl, rfl, rfl, rfl, ?_, ?_, ?_, ?_⟩
  · intro h
    have hnone : (pathParts path)[4]? = Option.none := List.getElem?_eq_none h
    have hname : (parsePathComponents path).acceleratorName = Option.none := by
      show (pathParts path)[4]? = Option.none
      exact hnone
    unfold createEntitiesFromPathComponents
    rw [createAccelerator_not_present store _ (by
      unfold namePresent; rw [hname])]
  · intro h
    have hnone : (pathParts path)[6]? = Option.none := List.getElem?_eq_none h
    have hname : (parsePathComponents path).stageName = Option.none := by
      show ((pathParts path)[6]?).map _ = Option.none
      rw [hnone]; rfl
    show (createStage (createAccelerator store (parsePathComponents path)).2
        (parsePathComponents path)).1 = Option.none
    rw [createStage_name_none _ _ hname]
  · intro h
    have hnone : (pathParts path)[7]? = Option.none := List.getElem?_eq_none h
    have hname : (parsePathComponents path).campaignName = Option.none := by
      show (pathParts path)[7]? = Option.none
      exact hnone
    show (createCampaign
        (createStage (createAccelerator store (parsePathComponents path)).2
          (parsePathComponents path)).2 (parsePathComponents path)).1 =
      Option.none
    rw [createCampaign_name_none _ _ hname]
  · intro h
    have hnone : (pathParts path)[8]? = Option.none := List.getElem?_eq_none h
    have hname : (parsePathComponents path).detectorName = Option.none := by
      show (pathParts path)[8]? = Option.none
      exact hnone
    show (createDetector
        (createCampaign
          (createStage (createAccelerator store (parsePathComponents path)).2
            (parsePathComponents path)).2 (parsePathComponents path)).2
        (parsePathComponents path)
        (createAccelerator store (parsePathComponents path)).1).1 =
      Option.none
    rw [createDetector_name_none _ _ _ hname]

/-- C7 (counterexample): the stage segment is not stripped of a trailing
`Events` only — `str.replace("Events", "")` removes every occurrence, so a
segment `EventsX`, which has no trailing `Events`, still loses its
`Events` and becomes `X` instead of staying intact. -/
theorem C7_counterexample_events_removed_everywhere :
    (parsePathComponents "/a/b/c/d/e/EventsX/g/h").stageName = some "X" ∧
      some "X" ≠ some "EventsX" := by
  exact ⟨by decide, by decide⟩

/-- C7 witness: a short path has positions 5 and 6 missing; the accelerator
still resolves while the stage foreign key stays NULL. -/
theorem C7_path_position_mapping_witness :
    (pathParts "/eos/experiment/fcc/ee").length ≤ 6 ∧
      (createEntitiesFromPathComponents ⟨[], 1⟩
          (parsePathComponents "/eos/experiment/fcc/ee")).1.stageId =
        Option.none := by
  refine ⟨by decide, ?_⟩
  exact ((C7_path_position_mapping "/eos/experiment/fcc/ee"
    ⟨[], 1⟩).2.2.2.2.2.1) (by decide)

theorem dropdownFilterStep_eq (db : DropdownDb)
    (nav : List (String × TableInfo)) (conds : List DropCond)
    (kv : String × String) :
    dropdownFilterStep db nav conds kv =
      conds ++ (dropdownCondOfFilter db nav kv).toList := by
  unfold dropdownFilterStep dropdownCondOfFilter
  by_cases h1 : strHasSuf "_name" kv.1 = true
  · cases hr : processNameFilter db nav kv.1 kv.2 <;> simp [h1, hr]
  · simp only [Bool.not_eq_true] at h1
    by_cases h2 : strHasSuf "_id" kv.1 = true
    · simp [h1, h2]
    · simp only [Bool.not_eq_true] at h2
      simp [h1, h2]

theorem processDropdownFilters_go (db : DropdownDb)
    (nav : List (String × TableInfo)) (filterDict : List (String × String)) :
    ∀ acc : List DropCond,
      filterDict.foldl (dropdownFilterStep db nav) acc =
        acc ++ filterDict.filterMap (dropdownCondOfFilter db nav) := by
  induction filterDict with
  | nil => intro acc; simp
  | cons kv rest ih =>
      intro acc
      rw [List.foldl_cons, dropdownFilterStep_eq, ih, List.filterMap_cons]
      cases hr : dropdownCondOfFilter db nav kv <;> simp [hr]

/-- C5 (amended): a `_name` filter is resolved by an exact-value ILIKE lookup
and contributes its id condition when resolution succeeds; an unresolvable
filter (unknown entity key or no matching row) is silently dropped from
the conditions — the dropdown query then runs without it and the call
still returns a result (no error), but that result is the list computed
without the filter, not a forced empty list. -/
theorem C5_unresolvable_filters_skipped (db : DropdownDb)
    (nav : List (String × TableInfo)) (filterDict : List (String × String))
    (tableKey : String)
    (hknown : (nav.find? (fun p => p.1 == tableKey)).isSome = true) :
    processDropdownFilters db nav filterDict =
        filterDict.filterMap (dropdownCondOfFilter db nav) ∧
      ∃ items, getDropdownItems db tableKey nav filterDict =
        Except.ok items := by
  constructor
  · unfold processDropdownFilters
    simpa using processDropdownFilters_go db nav filterDict []
  · unfold getDropdownItems
    cases hf : nav.find? (fun p => p.1 == tableKey) with
    | none => rw [hf] at hknown; cases hknown
    | some p => exact ⟨_, rfl⟩

/-- C5 (counterexample): with a resolvable dropdown population and an
unresolvable `campaign_name` filter, the dropdown result is the unfiltered
item list, not the empty list the claim requires. -/
theorem C5_counterexample_unresolvable_filter_not_empty :
    getDropdownItems
        ⟨[("detectors", [⟨1, "DET"⟩]), ("campaigns", [])],
          [[("detector_id", 1)]]⟩
        "detector"
        [("detector", ⟨"detectors", "detector_id", "name"⟩),
          ("campaign", ⟨"campaigns", "campaign_id", "name"⟩)]
        [("campaign_name", "Camp1")] =
      Except.ok [(1, "DET")] ∧
      (Except.ok [(1, "DET")] : Except String (List (Nat × String))) ≠
        Except.ok [] := by
  constructor
  · rfl
  · intro h
    cases h

/-- C5 witness: the amended statement applied to the concrete database of the
counterexample. -/
theorem C5_unresolvable_filters_skipped_witness :
    ((([("detector", (⟨"detectors", "detector_id", "name"⟩ : TableInfo)),
        ("campaign", ⟨"campaigns", "campaign_id", "name"⟩)] :
          List (String × TableInfo)).find?
        (fun p => p.1 == "detector")).isSome = true) ∧
      processDropdownFilters
          ⟨[("detectors", [⟨1, "DET"⟩]), ("campaigns", [])],
            [[("detector_id", 1)]]⟩
          [("detector", ⟨"detectors", "detector_id", "name"⟩),
            ("campaign", ⟨"campaigns", "campaign_id", "name"⟩)]
          [("campaign_name", "Camp1")] = [] := by
  refine ⟨by decide, ?_⟩
  have h :=
    (C5_unresolvable_filters_skipped
      ⟨[("detectors", [⟨1, "DET"⟩]), ("campaigns", [])],
        [[("detector_id", 1)]]⟩
      [("detector", ⟨"detectors", "detector_id", "name"⟩),
        ("campaign", ⟨"campaigns", "campaign_id", "name"⟩)]
      [("campaign_name", "Camp1")] "detector" (by decide)).1
  rw [h]
  rfl

/-- C8 (counterexample): a metadata column holding the serialized JSON value
`42` is returned as the parsed number, not as a mapping — the executor
keeps whatever `json.loads` produced, so the output metadata is not always
a mapping. -/
theorem C8_counterexample_non_object_metadata :
    processRowMetadata (some "42") = Json.num "42" ∧
      (Json.num "42").isObj = false :=
  ⟨rfl, rfl⟩

/-- C8 (amended): for every row, a missing or empty metadata cell and an
unparseable one are replaced by the empty mapping, and a cell whose
serialized form parses is replaced by the parsed value — a nested mapping
whenever the stored JSON is an object, but a non-object JSON value (never
produced by the repository's own writers) is surfaced as parsed rather
than as a mapping. -/
theorem C8_metadata_always_parsed (s : String) :
    processRowMetadata Option.none = Json.obj [] ∧
      ((s = "" ∨ jsonLoads s = Option.none) →
        processRowMetadata (some s) = Json.obj []) ∧
      (∀ j, s ≠ "" → jsonLoads s = some j →
        processRowMetadata (some s) = j) := by
  refine ⟨rfl, ?_, ?_⟩
  · intro h
    simp only [processRowMetadata]
    rcases h with h | h
    · rw [if_pos h]
    · by_cases he : s = ""
      · rw [if_pos he]
      · rw [if_neg he, h]
  · intro j hne hj
    simp only [processRowMetadata]
    rw [if_neg hne, hj]

/-- C8 witness: a concrete serialized object parses and is surfaced as the
nested mapping. -/
theorem C8_metadata_always_parsed_witness :
    jsonLoads "\x7b\"a\": 1\x7d" = some (Json.obj [("a", Json.num "1")]) ∧
      processRowMetadata (some "\x7b\"a\": 1\x7d") =
        Json.obj [("a", Json.num "1")] := by
  refine ⟨rfl, ?_⟩
  exact (C8_metadata_always_parsed "\x7b\"a\": 1\x7d").2.2 _ (by decide) rfl

theorem toDigitsCore_eq_repChars :
    ∀ (fuel n : Nat) (acc : List Char), n < fuel →
      Nat.toDigitsCore 10 fuel n acc = repChars n ++ acc := by
  intro fuel
  induction fuel with
  | zero => intro n acc h; omega
  | succ f ih =>
      intro n acc h
      simp only [Nat.toDigitsCore]
      by_cases h10 : n / 10 = 0
      · have hn : n < 10 := by omega
        rw [if_pos h10, repChars, if_pos hn, Nat.mod_eq_of_lt hn]
        rfl
      · have hn : ¬ n < 10 := by omega
        have hdiv : n / 10 < n := Nat.div_lt_self (by omega) (by omega)
        rw [if_neg h10, ih (n / 10) _ (by omega),
          show repChars n = repChars (n / 10) ++ [Nat.digitChar (n % 10)] from
            by rw [repChars, if_neg hn]]
        simp

theorem natRepr_data (n : Nat) : (Nat.repr n).data = repChars n := by
  show ((Nat.toDigits 10 n).asString).data = repChars n
  rw [Nat.toDigits]
  have := toDigitsCore_eq_repChars (n + 1) n [] (by omega)
  simp [List.asString, this]

theorem digitVal_digitChar (d : Nat) (h : d < 10) :
    digitVal (Nat.digitChar d) = d := by
  interval_cases d <;> decide

theorem digitChar_isDigit (d : Nat) (h : d < 10) :
    (Nat.digitChar d).isDigit = true := by
  interval_cases d <;> decide

theorem digitsVal_repChars (n : Nat) : digitsVal (repChars n) = n := by
  induction n using Nat.strong_induction_on with
  | _ n ih =>
      rw [repChars]
      by_cases h : n < 10
      · rw [if_pos h]
        show 0 * 10 + digitVal (Nat.digitChar n) = n
        rw [digitVal_digitChar n h]
        omega
      · rw [if_neg h]
        unfold digitsVal
        rw [List.foldl_append]
        show digitsVal (repChars (n / 10)) * 10 +
          digitVal (Nat.digitChar (n % 10)) = n
        rw [ih (n / 10) (Nat.div_lt_self (by omega) (by omega)),
          digitVal_digitChar _ (Nat.mod_lt _ (by omega))]
        omega

theorem natRepr_digitsVal (n : Nat) : digitsVal ((Nat.repr n).data) = n := by
  rw [natRepr_data, digitsVal_repChars]

theorem natRepr_injective : Function.Injective Nat.repr := by
  intro a b h
  have := congrArg (fun s => digitsVal s.data) h
  simpa [natRepr_digitsVal] using this

theorem repChars_all_digits (n : Nat) :
    ∀ c ∈ repChars n, c.isDigit = true := by
  induction n using Nat.strong_induction_on with
  | _ n ih =>
      rw [repChars]
      by_cases h : n < 10
      · rw [if_pos h]
        intro c hc
        simp only [List.mem_singleton] at hc
        subst hc
        exact digitChar_isDigit n h
      · rw [if_neg h]
        intro c hc
        rcases List.mem_append.mp hc with h1 | h2
        · exact ih (n / 10) (Nat.div_lt_self (by omega) (by omega)) c h1
        · simp only [List.mem_singleton] at h2
          subst h2
          exact digitChar_isDigit _ (Nat.mod_lt _ (by omega))

theorem natRepr_all_digits (n : Nat) :
    ∀ c ∈ (Nat.repr n).data, c.isDigit = true := by
  rw [natRepr_data]; exact repChars_all_digits n

theorem appendRepr_injective (base : String) :
    Function.Injective (fun k : Nat => base ++ Nat.repr k) := by
  intro a b h
  simp only [] at h
  have hd := congrArg String.data h
  rw [String.data_append, String.data_append] at hd
  have hc := List.append_cancel_left hd
  exact natRepr_injective (String.ext hc)

theorem exists_free_counter (base : String) (used : List String) :
    ∃ k, 1 ≤ k ∧ k < used.length + 2 ∧ base ++ Nat.repr k ∉ used := by
  by_contra hcon
  push_neg at hcon
  have hinj : Function.Injective
      (fun i : Fin (used.length + 1) => base ++ Nat.repr (i.val + 1)) := by
    intro i j hij
    have := appendRepr_injective base hij
    omega
  have hsub : Finset.univ.image
      (fun i : Fin (used.length + 1) => base ++ Nat.repr (i.val + 1)) ⊆
        used.toFinset := by
    intro s hs
    rcases Finset.mem_image.mp hs with ⟨i, _, rfl⟩
    exact List.mem_toFinset.mpr (hcon _ (by omega) (by omega))
  have hcard := Finset.card_le_card hsub
  rw [Finset.card_image_of_injective _ hinj, Finset.card_univ,
    Fintype.card_fin] at hcard
  have := List.toFinset_card_le used
  omega

theorem qpAliasCounterLoop_spec (base : String) (used : List String) :
    ∀ (fuel counter : Nat),
      (∃ k, counter ≤ k ∧ k < counter + fuel ∧ base ++ Nat.repr k ∉ used) →
      base ++ Nat.repr (qpAliasCounterLoop base used fuel counter) ∉ used ∧
        counter ≤ qpAliasCounterLoop base used fuel counter ∧
        ∀ j, counter ≤ j → j < qpAliasCounterLoop base used fuel counter →
          base ++ Nat.repr j ∈ used := by
  intro fuel
  induction fuel with
  | zero =>
      intro counter hex
      obtain ⟨k, h1, h2, _⟩ := hex
      omega
  | succ f ih =>
      intro counter hex
      simp only [qpAliasCounterLoop]
      by_cases hmem : base ++ Nat.repr counter ∈ used
      · rw [if_pos hmem]
        have hex' : ∃ k, counter + 1 ≤ k ∧ k < counter + 1 + f ∧
            base ++ Nat.repr k ∉ used := by
          obtain ⟨k, h1, h2, h3⟩ := hex
          have hne : k ≠ counter := by
            intro hk; subst hk; exact h3 hmem
          exact ⟨k, by omega, by omega, h3⟩
        obtain ⟨ha, hb, hc⟩ := ih (counter + 1) hex'
        refine ⟨ha, by omega, ?_⟩
        intro j hj1 hj2
        by_cases hj : j = counter
        · subst hj; exact hmem
        · exact hc j (by omega) hj2
      · rw [if_neg hmem]
        exact ⟨hmem, Nat.le_refl _, by intro j h1 h2; omega⟩

theorem aliasIfForm_fresh (base2 : String) (used : List String) :
    (if base2 ∈ used then
        base2 ++ Nat.repr (qpAliasCounterLoop base2 used (used.length + 1) 1)
      else base2) ∉ used := by
  by_cases h : base2 ∈ used
  · rw [if_pos h]
    obtain ⟨k, h1, h2, h3⟩ := exists_free_counter base2 used
    exact (qpAliasCounterLoop_spec base2 used (used.length + 1) 1
      ⟨k, h1, by omega, h3⟩).1
  · rw [if_neg h]; exact h

theorem qpGenerateUniqueAlias_fresh (entityKey : String)
    (used : List String) : qpGenerateUniqueAlias entityKey used ∉ used :=
  aliasIfForm_fresh _ used

theorem qp_db_loops_eq : qpAliasCounterLoop = dbAliasCounterLoop := by
  funext base used fuel
  induction fuel with
  | zero => funext counter; rfl
  | succ f ih =>
      funext counter
      simp only [qpAliasCounterLoop, dbAliasCounterLoop]
      by_cases h : base ++ Nat.repr counter ∈ used
      · rw [if_pos h, if_pos h, ih]
      · rw [if_neg h, if_neg h]

theorem assignAliasesGo_spec :
    ∀ (keys used : List String),
      (∀ a ∈ (assignAliasesGo keys used).1, a ∉ used) ∧
        (assignAliasesGo keys used).1.Nodup := by
  intro keys
  induction keys with
  | nil =>
      intro used
      exact ⟨by intro a ha; simp [assignAliasesGo] at ha,
        by simp [assignAliasesGo]⟩
  | cons key rest ih =>
      intro used
      simp only [assignAliasesGo]
      constructor
      · intro a ha
        rcases List.mem_cons.mp ha with rfl | hmem
        · exact qpGenerateUniqueAlias_fresh key used
        · intro hin
          exact (ih (used ++ [qpGenerateUniqueAlias key used])).1 a hmem
            (List.mem_append_left _ hin)
      · rw [List.nodup_cons]
        refine ⟨?_, (ih _).2⟩
        intro hin
        exact (ih _).1 _ hin (List.mem_append_right _ (by simp))

/-- C9: the two independent copies of the alias generator agree; every
produced alias is fresh (distinct from `d` and every previously assigned
alias when the caller loop threads the used set); the alias is the
three-character prefix (the whole key when its length is at most three)
when free, else the four-character prefix when free, else that prefix with
the smallest free positive counter appended. -/
theorem C9_alias_assignment (entityKey : String) (used : List String)
    (keys : List String) :
    (qpGenerateUniqueAlias entityKey used =
        dbGenerateUniqueAlias entityKey used) ∧
      qpGenerateUniqueAlias entityKey used ∉ used ∧
      (let base1 :=
        if entityKey.length > 3 then strTake entityKey 3 else entityKey
       let base2 :=
        if base1 ∈ used ∧ entityKey.length > 3 then strTake entityKey 4
        else base1
       (base2 ∉ used → qpGenerateUniqueAlias entityKey used = base2) ∧
        (base2 ∈ used → ∃ k, 1 ≤ k ∧ base2 ++ Nat.repr k ∉ used ∧
          (∀ j, 1 ≤ j → j < k → base2 ++ Nat.repr j ∈ used) ∧
          qpGenerateUniqueAlias entityKey used = base2 ++ Nat.repr k)) ∧
      (assignAliases keys).Nodup ∧ "d" ∉ assignAliases keys := by
  refine ⟨?_, qpGenerateUniqueAlias_fresh entityKey used, ⟨?_, ?_⟩, ?_, ?_⟩
  · unfold qpGenerateUniqueAlias dbGenerateUniqueAlias
    rw [qp_db_loops_eq]
  · intro hfree
    unfold qpGenerateUniqueAlias
    rw [if_neg hfree]
  · intro htaken
    unfold qpGenerateUniqueAlias
    rw [if_pos htaken]
    set base2 :=
      if (if entityKey.length > 3 then strTake entityKey 3 else entityKey) ∈
          used ∧ entityKey.length > 3 then
        strTake entityKey 4
      else if entityKey.length > 3 then strTake entityKey 3 else entityKey
      with hbase2
    obtain ⟨k, h1, h2, h3⟩ := exists_free_counter base2 used
    obtain ⟨ha, hb, hc⟩ := qpAliasCounterLoop_spec base2 used
      (used.length + 1) 1 ⟨k, h1, by omega, h3⟩
    exact ⟨qpAliasCounterLoop base2 used (used.length + 1) 1, hb, ha,
      fun j hj1 hj2 => hc j hj1 hj2, rfl⟩
  · exact (assignAliasesGo_spec keys ["d"]).2
  · intro hd
    exact (assignAliasesGo_spec keys ["d"]).1 "d" hd (by simp)

/-- C9 witness: with `detector` against the reserved alias set, the
three-character prefix is free and becomes the alias; the theorem applied
at that input, its freeness hypothesis discharged concretely. -/
theorem C9_alias_assignment_witness :
    ("det" ∉ (["d"] : List String)) ∧
      qpGenerateUniqueAlias "detector" ["d"] = "det" ∧
      qpGenerateUniqueAlias "detector" ["d"] =
        dbGenerateUniqueAlias "detector" ["d"] := by
  have h := C9_alias_assignment "detector" ["d"] ["detector"]
  refine ⟨by decide, ?_, h.1⟩
  have h2 := h.2.2.1.1
  exact h2 (by decide)

theorem phScanAux_skip (a b : List Char) (h : '$' ∉ a) :
    phScanAux (a ++ b) Option.none = phScanAux b Option.none := by
  induction a with
  | nil => rfl
  | cons c a' ih =>
      simp only [List.mem_cons, not_or] at h
      simp only [List.cons_append, phScanAux]
      rw [if_neg (fun hc => h.1 hc.symm)]
      exact ih h.2

theorem phScanAux_noDollar (a : List Char) (h : '$' ∉ a) :
    phScanAux a Option.none = [] := by
  have hs := phScanAux_skip a [] h
  rw [List.append_nil] at hs
  rw [hs]
  rfl

theorem phScanAux_flush (b : List Char) (n : Nat)
    (h : headNotDigit b = true) :
    phScanAux b (some n) = n :: phScanAux b Option.none := by
  cases b with
  | nil => rfl
  | cons c rest =>
      simp only [headNotDigit, Bool.not_eq_true'] at h
      simp only [phScanAux]
      rw [if_neg (by simp [h])]
      by_cases hc : c = '$'
      · rw [if_pos hc, if_pos hc]
      · rw [if_neg hc, if_neg hc]

theorem phScanAux_digits (ds : List Char) :
    (∀ c ∈ ds, c.isDigit = true) →
    ∀ (b : List Char) (n : Nat),
      phScanAux (ds ++ b) (some n) =
        phScanAux b (some (ds.foldl (fun a c => a * 10 + digitVal c) n)) := by
  induction ds with
  | nil => intro _ b n; rfl
  | cons c ds' ih =>
      intro hd b n
      have hc := hd c (by simp)
      simp only [List.cons_append, phScanAux, List.foldl_cons]
      rw [if_pos hc]
      exact ih (fun x hx => hd x (by simp [hx])) b _

theorem phScanAux_split (a : List Char) :
    (∀ b, headNotDigit b = true →
      phScanAux (a ++ b) Option.none =
        phScanAux a Option.none ++ phScanAux b Option.none) ∧
    (∀ b n, headNotDigit b = true →
      phScanAux (a ++ b) (some n) =
        phScanAux a (some n) ++ phScanAux b Option.none) := by
  induction a with
  | nil =>
      constructor
      · intro b _; rfl
      · intro b n hb
        simp only [List.nil_append]
        rw [phScanAux_flush b n hb]
        rfl
  | cons c a' ih =>
      constructor
      · intro b hb
        simp only [List.cons_append, phScanAux]
        by_cases hc : c = '$'
        · rw [if_pos hc, if_pos hc]
          exact ih.2 b 0 hb
        · rw [if_neg hc, if_neg hc]
          exact ih.1 b hb
      · intro b n hb
        simp only [List.cons_append, phScanAux, List.append_eq]
        by_cases hdig : c.isDigit = true
        · rw [if_pos hdig, if_pos hdig]
          exact ih.2 b _ hb
        · rw [if_neg hdig, if_neg hdig]
          by_cases hc : c = '$'
          · rw [if_pos hc, if_pos hc]
            rw [ih.2 b 0 hb]
            simp
          · rw [if_neg hc, if_neg hc]
            rw [ih.1 b hb]
            simp

theorem phScanAux_ph_lit (k : Nat) (b : List Char)
    (hb : headNotDigit b = true) :
    phScanAux ('$' :: ((Nat.repr k).data ++ b)) Option.none =
      k :: phScanAux b Option.none := by
  have h1 : phScanAux ('$' :: ((Nat.repr k).data ++ b)) Option.none =
      phScanAux ((Nat.repr k).data ++ b) (some 0) := by
    simp [phScanAux]
  have hval : (Nat.repr k).data.foldl (fun a c => a * 10 + digitVal c) 0 = k :=
    natRepr_digitsVal k
  rw [h1, phScanAux_digits (Nat.repr k).data (natRepr_all_digits k) b 0,
    hval, phScanAux_flush b k hb]

theorem phScanAux_single (pre : List Char) (k : Nat) (post : List Char)
    (hpre : '$' ∉ pre) (hpost : '$' ∉ post)
    (hb : headNotDigit post = true) :
    phScanAux (pre ++ '$' :: ((Nat.repr k).data ++ post)) Option.none =
      [k] := by
  rw [phScanAux_skip pre _ hpre, phScanAux_ph_lit k post hb,
    phScanAux_noDollar post hpost]

theorem mem_firstDedup (x : Nat) (l : List Nat) :
    x ∈ firstDedup l ↔ x ∈ l := by
  induction l with
  | nil => simp [firstDedup]
  | cons a l' ih =>
      simp only [firstDedup, List.mem_cons, List.mem_filter,
        decide_eq_true_eq]
      constructor
      · rintro (rfl | ⟨hx, _⟩)
        · exact Or.inl rfl
        · exact Or.inr (ih.mp hx)
      · rintro (rfl | hx)
        · exact Or.inl rfl
        · by_cases hxa : x = a
          · exact Or.inl hxa
          · exact Or.inr ⟨ih.mpr hx, hxa⟩

theorem firstDedup_append_disjoint (A B : List Nat)
    (h : ∀ x ∈ A, x ∉ B) :
    firstDedup (A ++ B) = firstDedup A ++ firstDedup B := by
  induction A with
  | nil => rfl
  | cons a A' ih =>
      simp only [List.cons_append, firstDedup, List.append_eq]
      rw [ih (fun x hx => h x (by simp [hx])), List.filter_append]
      have hB : (firstDedup B).filter (fun x => x ≠ a) = firstDedup B := by
        apply List.filter_eq_self.mpr
        intro x hx
        have hxB : x ∈ B := (mem_firstDedup x B).mp hx
        have haB : a ∉ B := h a (by simp)
        simp only [ne_eq, decide_eq_true_eq]
        intro hxa
        subst hxa
        exact haB hxB
      rw [hB]

theorem firstDedup_const (l : List Nat) (k : Nat) (hne : l ≠ [])
    (h : ∀ x ∈ l, x = k) : firstDedup l = [k] := by
  cases l with
  | nil => cases hne rfl
  | cons a l' =>
      have ha : a = k := h a (by simp)
      subst ha
      simp only [firstDedup, List.cons.injEq, true_and]
      apply List.filter_eq_nil_iff.mpr
      intro x hx
      have : x = a := h x (by simp [(mem_firstDedup x l').mp hx])
      simp [this]

theorem noDollar_append (a b : String) (ha : '$' ∉ a.data)
    (hb : '$' ∉ b.data) : '$' ∉ (a ++ b).data := by
  rw [String.data_append]
  intro h
  rcases List.mem_append.mp h with h | h
  exacts [ha h, hb h]

theorem strJoin_noDollar (sep : String) (xs : List String)
    (hsep : '$' ∉ sep.data) (hxs : ∀ x ∈ xs, '$' ∉ x.data) :
    '$' ∉ (strJoin sep xs).data := by
  induction xs with
  | nil => intro h; cases h
  | cons x xs' ih =>
      cases xs' with
      | nil => exact hxs x (by simp)
      | cons y ys =>
          show '$' ∉ (x ++ sep ++ strJoin sep (y :: ys)).data
          exact noDollar_append _ _
            (noDollar_append _ _ (hxs x (by simp)) hsep)
            (ih (fun z hz => hxs z (by simp [List.mem_cons] at hz ⊢; tauto)))

theorem jsonFieldExpr_noDollar (mc : String) (parts : List String)
    (hmc : '$' ∉ mc.data) (hp : ∀ p ∈ parts, '$' ∉ p.data) :
    '$' ∉ (jsonFieldExpr mc parts).data := by
  match parts with
  | [] => exact hmc
  | [p] =>
      show '$' ∉ (mc ++ "->>'" ++ p ++ "'").data
      exact noDollar_append _ _
        (noDollar_append _ _ (noDollar_append _ _ hmc (by decide))
          (hp p (by simp))) (by decide)
  | p1 :: p2 :: ps =>
      show '$' ∉ (mc ++ "->" ++
        strJoin "->" ((p1 :: p2 :: ps).dropLast.map
          (fun p => "'" ++ p ++ "'")) ++
        "->>'" ++ (((p1 :: p2 :: ps).getLast?).getD "") ++ "'").data
      refine noDollar_append _ _ (noDollar_append _ _ (noDollar_append _ _
        (noDollar_append _ _ (noDollar_append _ _ hmc (by decide)) ?_)
        (by decide)) ?_) (by decide)
      · apply strJoin_noDollar _ _ (by decide)
        intro q hq
        rcases List.mem_map.mp hq with ⟨p, hpmem, rfl⟩
        exact noDollar_append _ _
          (noDollar_append _ _ (by decide)
            (hp p (List.mem_of_mem_dropLast hpmem))) (by decide)
      · cases hl : (p1 :: p2 :: ps).getLast? with
        | none => intro h; cases h
        | some q => exact hp q (List.mem_of_mem_getLast? hl)

theorem baseFieldOf_noDollar (f : QField) (h : '$' ∉ f.head.data) :
    '$' ∉ (baseFieldOf f).data := by
  unfold baseFieldOf
  by_cases hs : strHasSuf "_name" f.head = true
  · rw [if_pos hs]
    intro hmem
    exact h (List.mem_of_mem_take hmem)
  · rw [if_neg hs]
    exact h

theorem sqlColumnOf?_noDollar (sm : List (String × String)) (bf s : String)
    (hsm : ∀ p ∈ sm, '$' ∉ p.2.data) (h : sqlColumnOf? sm bf = some s) :
    '$' ∉ s.data := by
  unfold sqlColumnOf? at h
  cases hf : sm.find? (fun p => p.1 == bf) with
  | none => rw [hf] at h; cases h
  | some p =>
      rw [hf] at h
      cases h
      exact hsm p (List.mem_of_find?_eq_some hf)

theorem fieldToSqlTail_noDollar (bf : String) (rest : List String)
    (col : String) (value : PyVal) (op : Option String)
    (hcol : '$' ∉ col.data) (hrest : ∀ s ∈ rest, '$' ∉ s.data) :
    '$' ∉ (fieldToSqlTail bf rest col value op).data := by
  unfold fieldToSqlTail
  by_cases hc : (bf == "metadata" && !rest.isEmpty) = true
  · rw [if_pos hc]
    have hj : '$' ∉ (jsonFieldExpr col rest).data :=
      jsonFieldExpr_noDollar col rest hcol hrest
    by_cases hn : numericCastNeeded value op = true
    · rw [if_pos hn]
      exact noDollar_append _ _ (noDollar_append _ _ (by decide) hj) (by decide)
    · rw [if_neg hn]
      exact hj
  · rw [if_neg hc]
    exact hcol

theorem fieldToSql_noDollar (sm : List (String × String)) (f : QField)
    (value : PyVal) (op : Option String) (amf : List String)
    (hsm : ∀ p ∈ sm, '$' ∉ p.2.data) (hhead : '$' ∉ f.head.data)
    (hrest : ∀ s ∈ f.rest, '$' ∉ s.data) :
    '$' ∉ (fieldToSql sm f value op amf).data := by
  have hbf := baseFieldOf_noDollar f hhead
  unfold fieldToSql
  by_cases h1 : sqlColFalsy sm (baseFieldOf f) = true
  · rw [if_pos h1]
    by_cases h2 : entityFields.contains (baseFieldOf f) = true
    · rw [if_pos h2]
      exact fieldToSqlTail_noDollar _ _ _ _ _
        (noDollar_append _ _ (noDollar_append _ _ (by decide) hbf) (by decide))
        hrest
    · rw [if_neg h2]
      by_cases h3 : amf.contains (baseFieldOf f) = true
      · rw [if_pos h3]
        unfold autoDetectField
        have hmc : '$' ∉ ((sqlColumnOf? sm "metadata").getD "d.metadata").data := by
          cases hq : sqlColumnOf? sm "metadata" with
          | none => decide
          | some s => exact sqlColumnOf?_noDollar sm _ s hsm hq
        have hj : '$' ∉ (jsonFieldExpr
            ((sqlColumnOf? sm "metadata").getD "d.metadata")
            (f.head :: f.rest)).data := by
          apply jsonFieldExpr_noDollar _ _ hmc
          intro p hp
          rcases List.mem_cons.mp hp with rfl | hp
          · exact hhead
          · exact hrest p hp
        by_cases hn : numericCastNeeded value op = true
        · rw [if_pos hn]
          exact noDollar_append _ _ (noDollar_append _ _ (by decide) hj)
            (by decide)
        · rw [if_neg hn]
          exact hj
      · rw [if_neg h3]
        exact fieldToSqlTail_noDollar _ _ _ _ _
          (noDollar_append _ _ (by decide) hbf) hrest
  · rw [if_neg h1]
    apply fieldToSqlTail_noDollar _ _ _ _ _ _ hrest
    cases hq : sqlColumnOf? sm (baseFieldOf f) with
    | none => decide
    | some s => exact sqlColumnOf?_noDollar sm _ s hsm hq

theorem strAppend_assoc (a b c : String) : a ++ b ++ c = a ++ (b ++ c) := by
  apply String.ext
  simp [String.data_append]

theorem phScan_append_skip (a b : String) (h : '$' ∉ a.data) :
    phScan (a ++ b) = phScan b := by
  unfold phScan
  rw [String.data_append]
  exact phScanAux_skip a.data b.data h

theorem phScan_noDollar (a : String) (h : '$' ∉ a.data) : phScan a = [] :=
  phScanAux_noDollar a.data h

theorem phScan_append_split (a b : String)
    (hb : headNotDigit b.data = true) :
    phScan (a ++ b) = phScan a ++ phScan b := by
  unfold phScan
  rw [String.data_append]
  exact (phScanAux_split a.data).1 b.data hb

theorem phScan_placeholder_post (k : Nat) (b : String)
    (hb : headNotDigit b.data = true) :
    phScan ("$" ++ Nat.repr k ++ b) = k :: phScan b := by
  unfold phScan
  have hdata : ("$" ++ Nat.repr k ++ b).data =
      '$' :: ((Nat.repr k).data ++ b.data) := by
    rw [String.data_append, String.data_append]
    rfl
  rw [hdata]
  exact phScanAux_ph_lit k b.data hb

theorem phScan_placeholder (k : Nat) : phScan ("$" ++ Nat.repr k) = [k] := by
  unfold phScan
  have hdata : ("$" ++ Nat.repr k).data =
      '$' :: ((Nat.repr k).data ++ []) := by
    rw [String.data_append, List.append_nil]
    rfl
  rw [hdata, phScanAux_ph_lit k [] (by rfl)]
  rfl

theorem firstDedup_singleton (k : Nat) : firstDedup [k] = [k] := rfl

theorem range'_one (s : Nat) : List.range' s 1 = [s] := rfl

theorem translateFieldExists_spec (t : Translator) (f : QField)
    (sqlField : String) (hsql : '$' ∉ sqlField.data) :
    ∃ (d : Nat) (newPs : List PyVal),
      (translateFieldExists t f sqlField).2 =
        { t with params := t.params ++ newPs,
                 paramIndex := t.paramIndex + d } ∧
      newPs.length = d ∧
      firstDedup (phScan (translateFieldExists t f sqlField).1) =
        List.range' (t.paramIndex + 1) d := by
  unfold translateFieldExists
  by_cases h1 : ((f.head == "metadata" && !f.rest.isEmpty) ||
      t.availableMetadataFields.contains f.head) = true
  · rw [if_pos h1]
    by_cases h2 : ((if t.availableMetadataFields.contains f.head then
        f.head :: f.rest else f.rest).length == 1) = true
    · rw [if_pos h2]
      refine ⟨1, [PyVal.str ((if t.availableMetadataFields.contains f.head
          then f.head :: f.rest else f.rest).headD "")], rfl, rfl, ?_⟩
      rw [phScan_append_skip _ _ (by decide), phScan_placeholder,
        firstDedup_singleton, range'_one]
    · rw [if_neg h2]
      refine ⟨1, [PyVal.str ("$." ++ strJoin "."
          (if t.availableMetadataFields.contains f.head then
            f.head :: f.rest else f.rest))], rfl, rfl, ?_⟩
      show firstDedup (phScan ("jsonb_path_exists(d.metadata, " ++
          ("$" ++ Nat.repr (t.paramIndex + 1)) ++ ")")) =
        List.range' (t.paramIndex + 1) 1
      rw [strAppend_assoc, phScan_append_skip _ _ (by decide),
        phScan_placeholder_post _ _ (by decide),
        phScan_noDollar _ (by decide), firstDedup_singleton, range'_one]
  · rw [if_neg h1]
    refine ⟨0, [], ?_, rfl, ?_⟩
    · show t = _
      simp
    · rw [phScan_noDollar _ (noDollar_append _ _ hsql (by decide))]
      rfl

theorem strNoDollar_iff (s : String) :
    strNoDollar s = true ↔ '$' ∉ s.data := by
  simp [strNoDollar]

theorem translatorClean_sm (t : Translator) (h : translatorClean t = true) :
    ∀ p ∈ t.schemaMapping, '$' ∉ p.2.data := by
  unfold translatorClean at h
  rcases Bool.and_eq_true _ _ |>.mp h with ⟨h1, _⟩
  intro p hp
  exact (strNoDollar_iff _).mp (List.all_eq_true.mp h1 p hp)

theorem translatorClean_gsf (t : Translator) (h : translatorClean t = true) :
    ∀ fn ∈ t.globalSearchFields, '$' ∉ fn.data := by
  unfold translatorClean at h
  rcases Bool.and_eq_true _ _ |>.mp h with ⟨_, h2⟩
  intro fn hfn
  exact (strNoDollar_iff _).mp (List.all_eq_true.mp h2 fn hfn)

theorem comparisonOpValue_noDollar (op : String) (value : PyVal)
    (hop : '$' ∉ op.data) : '$' ∉ (comparisonOpValue op value).1.data := by
  unfold comparisonOpValue
  split_ifs
  · show '$' ∉ "ILIKE".data
    decide
  · show '$' ∉ "=".data
    decide
  · show '$' ∉ "~*".data
    decide
  · show '$' ∉ "!~*".data
    decide
  · exact hop

theorem scan_plain (sqlField sqlOp : String) (k : Nat)
    (hf : '$' ∉ sqlField.data) (ho : '$' ∉ sqlOp.data) :
    phScan (sqlField ++ " " ++ sqlOp ++ " " ++ ("$" ++ Nat.repr k)) = [k] := by
  rw [phScan_append_skip _ _
    (noDollar_append _ _
      (noDollar_append _ _ (noDollar_append _ _ hf (by decide)) ho)
      (by decide)),
    phScan_placeholder]

theorem scan_wrapped (sqlField sqlOp : String) (k : Nat)
    (hf : '$' ∉ sqlField.data) (ho : '$' ∉ sqlOp.data) :
    phScan ("(" ++ sqlField ++ " IS NOT NULL AND " ++ sqlField ++ " " ++
      sqlOp ++ " " ++ ("$" ++ Nat.repr k) ++ ")") = [k] := by
  rw [strAppend_assoc, phScan_append_skip _ _
    (noDollar_append _ _
      (noDollar_append _ _
        (noDollar_append _ _
          (noDollar_append _ _
            (noDollar_append _ _ (noDollar_append _ _ (by decide) hf)
              (by decide)) hf) (by decide)) ho) (by decide)),
    phScan_placeholder_post _ _ (by decide), phScan_noDollar _ (by decide)]

theorem translateComparison_spec (t : Translator) (f : QField) (op : String)
    (value : PyVal) (ht : translatorClean t = true)
    (hhead : '$' ∉ f.head.data) (hrest : ∀ s ∈ f.rest, '$' ∉ s.data)
    (hop : '$' ∉ op.data) :
    ∃ (d : Nat) (newPs : List PyVal),
      (translateComparison t f op value).2 =
        { t with params := t.params ++ newPs,
                 paramIndex := t.paramIndex + d } ∧
      newPs.length = d ∧
      firstDedup (phScan (translateComparison t f op value).1) =
        List.range' (t.paramIndex + 1) d := by
  have hsqlF : '$' ∉ (fieldToSql t.schemaMapping f value (some op)
      t.availableMetadataFields).data :=
    fieldToSql_noDollar _ _ _ _ _ (translatorClean_sm t ht) hhead hrest
  unfold translateComparison
  by_cases hA : (op == ":" && pyEqStr value "*") = true
  · rw [if_pos hA]
    exact translateFieldExists_spec t f _ hsqlF
  · rw [if_neg hA]
    by_cases hB : (op == ":" &&
        (f.head == "last_edited_at" || strHasSuf "last_edited_at"
          (fieldToSql t.schemaMapping f value (some op)
            t.availableMetadataFields)) &&
        (pyEqStr value "" || value.isNone)) = true
    · rw [if_pos hB]
      refine ⟨0, [], ?_, rfl, ?_⟩
      · show t = _
        simp
      · rw [phScan_noDollar _ (noDollar_append _ _ hsqlF (by decide))]
        rfl
    · rw [if_neg hB]
      by_cases hC : ((f.head == "last_edited_at" || strHasSuf "last_edited_at"
          (fieldToSql t.schemaMapping f value (some op)
            t.availableMetadataFields)) &&
          nullWrapOps.contains op) = true
      · rw [if_pos hC]
        refine ⟨1, _, rfl, rfl, ?_⟩
        show firstDedup (phScan ("(" ++
            fieldToSql t.schemaMapping f value (some op)
              t.availableMetadataFields ++ " IS NOT NULL AND " ++
            fieldToSql t.schemaMapping f value (some op)
              t.availableMetadataFields ++ " " ++
            (comparisonOpValue op value).1 ++ " " ++
            ("$" ++ Nat.repr (t.paramIndex + 1)) ++ ")")) =
          List.range' (t.paramIndex + 1) 1
        rw [scan_wrapped _ _ _ hsqlF (comparisonOpValue_noDollar op value hop),
          firstDedup_singleton, range'_one]
      · rw [if_neg hC]
        refine ⟨1, _, rfl, rfl, ?_⟩
        show firstDedup (phScan (fieldToSql t.schemaMapping f value (some op)
            t.availableMetadataFields ++ " " ++
            (comparisonOpValue op value).1 ++ " " ++
            ("$" ++ Nat.repr (t.paramIndex + 1)))) =
          List.range' (t.paramIndex + 1) 1
        rw [scan_plain _ _ _ hsqlF (comparisonOpValue_noDollar op value hop),
          firstDedup_singleton, range'_one]

theorem phScan_wrap (A B : String) (k : Nat) (hA : '$' ∉ A.data)
    (hB : '$' ∉ B.data) (hhd : headNotDigit B.data = true) :
    phScan (A ++ ("$" ++ Nat.repr k) ++ B) = [k] := by
  rw [strAppend_assoc, phScan_append_skip _ _ hA,
    phScan_placeholder_post _ _ hhd, phScan_noDollar _ hB]

theorem buildSearchCondition_scan (fn : String) (q : Bool) (k : Nat)
    (hf : '$' ∉ fn.data) :
    phScan (buildSearchCondition fn ("$" ++ Nat.repr k) q) = [k] := by
  unfold buildSearchCondition
  by_cases hq : q = true
  · rw [if_pos hq]
    exact phScan_wrap _ _ _ (noDollar_append _ _ hf (by decide)) (by decide)
      (by decide)
  · rw [if_neg hq]
    by_cases hj : (fn == "jsonb_values_to_text(d.metadata)") = true
    · rw [if_pos hj]
      have heq : "word_similarity(" ++ ("$" ++ Nat.repr k) ++ ", " ++ fn ++
            ") > 0.4" =
          "word_similarity(" ++ ("$" ++ Nat.repr k) ++
            (", " ++ (fn ++ ") > 0.4")) := by
        apply String.ext
        simp [String.data_append]
      rw [heq]
      refine phScan_wrap _ _ _ (by decide) ?_ ?_
      · exact noDollar_append _ _ (by decide)
          (noDollar_append _ _ hf (by decide))
      · rw [String.data_append]
        rfl
    · rw [if_neg hj]
      have heq : "similarity(" ++ ("$" ++ Nat.repr k) ++ ", " ++ fn ++
            ") > 0.6" =
          "similarity(" ++ ("$" ++ Nat.repr k) ++
            (", " ++ (fn ++ ") > 0.6")) := by
        apply String.ext
        simp [String.data_append]
      rw [heq]
      refine phScan_wrap _ _ _ (by decide) ?_ ?_
      · exact noDollar_append _ _ (by decide)
          (noDollar_append _ _ hf (by decide))
      · rw [String.data_append]
        rfl

theorem phScan_strJoin_const (xs : List String) (k : Nat)
    (hxs : ∀ x ∈ xs, phScan x = [k]) :
    phScan (strJoin " OR " xs) = List.replicate xs.length k := by
  induction xs with
  | nil => rfl
  | cons x xs' ih =>
      cases xs' with
      | nil =>
          show phScan x = List.replicate 1 k
          rw [hxs x (by simp)]
          rfl
      | cons y ys =>
          show phScan (x ++ " OR " ++ strJoin " OR " (y :: ys)) = _
          rw [strAppend_assoc,
            phScan_append_split x _ (by rw [String.data_append]; rfl),
            phScan_append_skip _ _ (by decide), hxs x (by simp),
            ih (fun z hz => hxs z (by simp [hz]))]
          simp [List.replicate_succ]

theorem firstDedup_phScan_strJoin (xs : List String) (k : Nat)
    (hne : xs ≠ []) (hxs : ∀ x ∈ xs, phScan x = [k]) :
    firstDedup (phScan (strJoin " OR " xs)) = [k] := by
  rw [phScan_strJoin_const xs k hxs]
  apply firstDedup_const
  · intro h
    rw [List.replicate_eq_nil_iff] at h
    rw [List.length_eq_zero] at h
    exact hne h
  · intro x hx
    exact List.eq_of_mem_replicate hx

theorem ne_empty_placeholder (n : Nat) : ("$" ++ Nat.repr n) ≠ "" := by
  intro h
  have h2 := congrArg String.data h
  rw [String.data_append] at h2
  exact absurd (List.append_eq_nil.mp h2).1 (by decide)

theorem buildGlobalSearchClause_cases (sv : String) (q : Bool)
    (fl : List String) (po : Nat) :
    buildGlobalSearchClause sv q fl po = ("TRUE", "") ∨
    (buildGlobalSearchClause sv q fl po =
        ("(" ++ strJoin " OR "
            (fl.map (fun fn =>
              buildSearchCondition fn ("$" ++ Nat.repr (po + 1)) q)) ++ ")",
         "$" ++ Nat.repr (po + 1)) ∧ fl ≠ []) := by
  unfold buildGlobalSearchClause
  by_cases h1 : (pyStrip sv == "") = true
  · rw [if_pos h1]
    exact Or.inl rfl
  · rw [if_neg h1]
    cases fl with
    | nil => exact Or.inl rfl
    | cons f fs => exact Or.inr ⟨rfl, by simp⟩

theorem translateGlobalSearch_spec (t : Translator) (value : String)
    (isQuoted : Bool)
    (hgsf : ∀ fn ∈ t.globalSearchFields, '$' ∉ fn.data) :
    ∃ (d : Nat) (newPs : List PyVal),
      (translateGlobalSearch t value isQuoted).2 =
        { t with params := t.params ++ newPs,
                 paramIndex := t.paramIndex + d } ∧
      newPs.length = d ∧
      firstDedup (phScan (translateGlobalSearch t value isQuoted).1) =
        List.range' (t.paramIndex + 1) d := by
  unfold translateGlobalSearch
  by_cases h1 : (pyStrip value == "*" || pyStrip value == "") = true
  · rw [if_pos h1]
    refine ⟨0, [], ?_, rfl, ?_⟩
    · show t = _
      simp
    · show firstDedup (phScan "TRUE") = _
      rw [phScan_noDollar _ (by decide)]
      rfl
  · rw [if_neg h1]
    rcases buildGlobalSearchClause_cases (pyStrip value) isQuoted
        t.globalSearchFields t.paramIndex with hr | ⟨hr, hfl⟩
    · refine ⟨0, [], ?_, rfl, ?_⟩
      · simp only [hr]
        rw [if_neg (fun h => h rfl)]
        show t = _
        simp
      · simp only [hr]
        rw [if_neg (fun h => h rfl)]
        show firstDedup (phScan "TRUE") = _
        rw [phScan_noDollar _ (by decide)]
        rfl
    · have hcs : ∀ c ∈ t.globalSearchFields.map (fun fn =>
          buildSearchCondition fn ("$" ++ Nat.repr (t.paramIndex + 1))
            isQuoted), phScan c = [t.paramIndex + 1] := by
        intro c hc
        rcases List.mem_map.mp hc with ⟨fn, hfn, rfl⟩
        exact buildSearchCondition_scan fn isQuoted _ (hgsf fn hfn)
      have hmapne : t.globalSearchFields.map (fun fn =>
          buildSearchCondition fn ("$" ++ Nat.repr (t.paramIndex + 1))
            isQuoted) ≠ [] := by
        intro h
        rw [List.map_eq_nil_iff] at h
        exact hfl h
      refine ⟨1, [PyVal.str (pyStrip value)], ?_, rfl, ?_⟩
      · simp only [hr]
        rw [if_pos (ne_empty_placeholder (t.paramIndex + 1))]
      · simp only [hr]
        rw [if_pos (ne_empty_placeholder (t.paramIndex + 1))]
        show firstDedup (phScan ("(" ++ strJoin " OR "
            (t.globalSearchFields.map (fun fn =>
              buildSearchCondition fn ("$" ++ Nat.repr (t.paramIndex + 1))
                isQuoted)) ++ ")")) = List.range' (t.paramIndex + 1) 1
        rw [strAppend_assoc, phScan_append_skip _ _ (by decide),
          phScan_append_split _ _ (by decide),
          phScan_noDollar ")" (by decide), List.append_nil,
          firstDedup_phScan_strJoin _ _ hmapne hcs, range'_one]

theorem translate_invariant (n : AstNode) :
    ∀ t : Translator, translatorClean t = true → astClean n = true →
    ∃ (d : Nat) (newPs : List PyVal),
      (translate t n).2 = { t with params := t.params ++ newPs,
                                   paramIndex := t.paramIndex + d } ∧
      newPs.length = d ∧
      firstDedup (phScan (translate t n).1) =
        List.range' (t.paramIndex + 1) d := by
  induction n with
  | comparison f op v =>
      intro t ht hc
      rw [astClean] at hc
      rcases Bool.and_eq_true _ _ |>.mp hc with ⟨hc1, hop⟩
      rcases Bool.and_eq_true _ _ |>.mp hc1 with ⟨hhead, hrest⟩
      exact translateComparison_spec t f op v ht
        ((strNoDollar_iff _).mp hhead)
        (fun s hs => (strNoDollar_iff _).mp (List.all_eq_true.mp hrest s hs))
        ((strNoDollar_iff _).mp hop)
  | globalSearch v q =>
      intro t ht _
      exact translateGlobalSearch_spec t v q (translatorClean_gsf t ht)
  | notNode m ih =>
      intro t ht hc
      rw [astClean] at hc
      obtain ⟨d, ps, h2, hlen, hscan⟩ := ih t ht hc
      refine ⟨d, ps, h2, hlen, ?_⟩
      show firstDedup (phScan ("NOT (" ++ (translate t m).1 ++ ")")) = _
      rw [strAppend_assoc, phScan_append_skip _ _ (by decide),
        phScan_append_split _ _ (by decide), phScan_noDollar ")" (by decide),
        List.append_nil, hscan]
  | andNode l r ihl ihr =>
      intro t ht hc
      rw [astClean] at hc
      rcases Bool.and_eq_true _ _ |>.mp hc with ⟨hcl, hcr⟩
      obtain ⟨dl, pl, hl2, hll, hlscan⟩ := ihl t ht hcl
      have ht' : translatorClean (translate t l).2 = true := by
        rw [hl2]
        exact ht
      obtain ⟨dr, pr, hr2, hrl, hrscan⟩ := ihr (translate t l).2 ht' hcr
      refine ⟨dl + dr, pl ++ pr, ?_, ?_, ?_⟩
      · show (translate (translate t l).2 r).2 = _
        rw [hr2, hl2]
        simp [List.append_assoc, Nat.add_assoc]
      · simp [hll, hrl]
      · show firstDedup (phScan ("(" ++ (translate t l).1 ++ " AND " ++
          (translate (translate t l).2 r).1 ++ ")")) = _
        have heq : "(" ++ (translate t l).1 ++ " AND " ++
            (translate (translate t l).2 r).1 ++ ")" =
            "(" ++ ((translate t l).1 ++ (" AND " ++
              ((translate (translate t l).2 r).1 ++ ")"))) := by
          apply String.ext
          simp [String.data_append]
        rw [heq, phScan_append_skip _ _ (by decide),
          phScan_append_split _ _ (by rw [String.data_append]; rfl),
          phScan_append_skip _ _ (by decide),
          phScan_append_split _ _ (by decide),
          phScan_noDollar ")" (by decide), List.append_nil]
        have hdisj : ∀ x ∈ phScan (translate t l).1,
            x ∉ phScan (translate (translate t l).2 r).1 := by
          intro x hx hxr
          have h1 : x ∈ List.range' (t.paramIndex + 1) dl := by
            rw [← hlscan]
            exact (mem_firstDedup x _).mpr hx
          have h2 : x ∈ List.range' ((translate t l).2.paramIndex + 1) dr := by
            rw [← hrscan]
            exact (mem_firstDedup x _).mpr hxr
          rw [hl2] at h2
          have h2' : x ∈ List.range' (t.paramIndex + dl + 1) dr := h2
          rw [List.mem_range'] at h1 h2'
          omega
        rw [firstDedup_append_disjoint _ _ hdisj, hlscan, hrscan, hl2]
        show List.range' (t.paramIndex + 1) dl ++
          List.range' (t.paramIndex + dl + 1) dr =
          List.range' (t.paramIndex + 1) (dl + dr)
        have h := List.range'_append_1 (t.paramIndex + 1) dl dr
        rw [show t.paramIndex + 1 + dl = t.paramIndex + dl + 1 by omega] at h
        rw [h, Nat.add_comm dr dl]
  | orNode l r ihl ihr =>
      intro t ht hc
      rw [astClean] at hc
      rcases Bool.and_eq_true _ _ |>.mp hc with ⟨hcl, hcr⟩
      obtain ⟨dl, pl, hl2, hll, hlscan⟩ := ihl t ht hcl
      have ht' : translatorClean (translate t l).2 = true := by
        rw [hl2]
        exact ht
      obtain ⟨dr, pr, hr2, hrl, hrscan⟩ := ihr (translate t l).2 ht' hcr
      refine ⟨dl + dr, pl ++ pr, ?_, ?_, ?_⟩
      · show (translate (translate t l).2 r).2 = _
        rw [hr2, hl2]
        simp [List.append_assoc, Nat.add_assoc]
      · simp [hll, hrl]
      · show firstDedup (phScan ("(" ++ (translate t l).1 ++ " OR " ++
          (translate (translate t l).2 r).1 ++ ")")) = _
        have heq : "(" ++ (translate t l).1 ++ " OR " ++
            (translate (translate t l).2 r).1 ++ ")" =
            "(" ++ ((translate t l).1 ++ (" OR " ++
              ((translate (translate t l).2 r).1 ++ ")"))) := by
          apply String.ext
          simp [String.data_append]
        rw [heq, phScan_append_skip _ _ (by decide),
          phScan_append_split _ _ (by rw [String.data_append]; rfl),
          phScan_append_skip _ _ (by decide),
          phScan_append_split _ _ (by decide),
          phScan_noDollar ")" (by decide), List.append_nil]
        have hdisj : ∀ x ∈ phScan (translate t l).1,
            x ∉ phScan (translate (translate t l).2 r).1 := by
          intro x hx hxr
          have h1 : x ∈ List.range' (t.paramIndex + 1) dl := by
            rw [← hlscan]
            exact (mem_firstDedup x _).mpr hx
          have h2 : x ∈ List.range' ((translate t l).2.paramIndex + 1) dr := by
            rw [← hrscan]
            exact (mem_firstDedup x _).mpr hxr
          rw [hl2] at h2
          have h2' : x ∈ List.range' (t.paramIndex + dl + 1) dr := h2
          rw [List.mem_range'] at h1 h2'
          omega
        rw [firstDedup_append_disjoint _ _ hdisj, hlscan, hrscan, hl2]
        show List.range' (t.paramIndex + 1) dl ++
          List.range' (t.paramIndex + dl + 1) dr =
          List.range' (t.paramIndex + 1) (dl + dr)
        have h := List.range'_append_1 (t.paramIndex + 1) dl dr
        rw [show t.paramIndex + 1 + dl = t.paramIndex + dl + 1 by omega] at h
        rw [h, Nat.add_comm dr dl]

/-- C2: Translator parameter discipline. Starting from a freshly reset
translator (with `$`-free schema mapping and global-search fields) and any
`$`-free AST — any nesting of Comparison, GlobalSearch, Not, And, Or —
`translate` returns a WHERE clause whose placeholders, in first-occurrence
order, are exactly `$1..$n` with `n` the length of the accumulated params
list, and the final `param_index` equals that length (including through the
`last_edited_at` empty-value branch that binds no parameter and the
global-search branch that shares one placeholder across all OR'd field
conditions). -/
theorem C2_translator_parameter_discipline (t : Translator)
    (sm : List (String × String)) (gsf amf : Option (List String))
    (n : AstNode)
    (ht : translatorClean (t.reset sm gsf amf) = true)
    (hn : astClean n = true) :
    firstDedup (phScan (translate (t.reset sm gsf amf) n).1) =
      List.range' 1 (translate (t.reset sm gsf amf) n).2.params.length ∧
    (translate (t.reset sm gsf amf) n).2.paramIndex =
      (translate (t.reset sm gsf amf) n).2.params.length := by
  obtain ⟨d, ps, h2, hlen, hscan⟩ :=
    translate_invariant n (t.reset sm gsf amf) ht hn
  have hplen : (translate (t.reset sm gsf amf) n).2.params.length = d := by
    rw [h2]
    simp [Translator.reset, hlen]
  constructor
  · rw [hplen, hscan]
    simp [Translator.reset]
  · rw [hplen, h2]
    simp [Translator.reset]

/-- C2 witness: the discipline evaluated on a concrete reset translator
(base dataset mapping, the dynamic global-search fields, `energy` as a
metadata field) and the AST of
`energy:91 AND (higgs OR last_edited_at>"2024-01-01")`. -/
theorem C2_translator_parameter_discipline_witness :
    translatorClean ((⟨[], [], [], [], 0⟩ : Translator).reset
      (createBaseMapping "dataset_id")
      (some ["d.name", "jsonb_values_to_text(d.metadata)", "acc.name"])
      (some ["energy"])) = true ∧
    astClean (.andNode (.comparison ⟨"energy", []⟩ ":" (.str "91"))
      (.orNode (.globalSearch "higgs" false)
        (.comparison ⟨"last_edited_at", []⟩ ">" (.str "2024-01-01")))) =
      true ∧
    (firstDedup (phScan (translate ((⟨[], [], [], [], 0⟩ : Translator).reset
        (createBaseMapping "dataset_id")
        (some ["d.name", "jsonb_values_to_text(d.metadata)", "acc.name"])
        (some ["energy"]))
        (.andNode (.comparison ⟨"energy", []⟩ ":" (.str "91"))
          (.orNode (.globalSearch "higgs" false)
            (.comparison ⟨"last_edited_at", []⟩ ">"
              (.str "2024-01-01"))))).1) =
      List.range' 1 (translate ((⟨[], [], [], [], 0⟩ : Translator).reset
        (createBaseMapping "dataset_id")
        (some ["d.name", "jsonb_values_to_text(d.metadata)", "acc.name"])
        (some ["energy"]))
        (.andNode (.comparison ⟨"energy", []⟩ ":" (.str "91"))
          (.orNode (.globalSearch "higgs" false)
            (.comparison ⟨"last_edited_at", []⟩ ">"
              (.str "2024-01-01"))))).2.params.length ∧
    (translate ((⟨[], [], [], [], 0⟩ : Translator).reset
        (createBaseMapping "dataset_id")
        (some ["d.name", "jsonb_values_to_text(d.metadata)", "acc.name"])
        (some ["energy"]))
        (.andNode (.comparison ⟨"energy", []⟩ ":" (.str "91"))
          (.orNode (.globalSearch "higgs" false)
            (.comparison ⟨"last_edited_at", []⟩ ">"
              (.str "2024-01-01"))))).2.paramIndex =
      (translate ((⟨[], [], [], [], 0⟩ : Translator).reset
        (createBaseMapping "dataset_id")
        (some ["d.name", "jsonb_values_to_text(d.metadata)", "acc.name"])
        (some ["energy"]))
        (.andNode (.comparison ⟨"energy", []⟩ ":" (.str "91"))
          (.orNode (.globalSearch "higgs" false)
            (.comparison ⟨"last_edited_at", []⟩ ">"
              (.str "2024-01-01"))))).2.params.length) :=
  ⟨by decide, by decide,
    C2_translator_parameter_discipline _ _ _ _ _ (by decide) (by decide)⟩

/-- C4 counterexample: `created_at` also resolves to a timestamp column of
the main table (`d.created_at` in the base mapping), yet a `:` comparison
with the empty value does NOT translate to `IS NOT NULL`: it goes through
the generic `:` branch, producing `d.created_at ILIKE $1` with the bound
parameter `'%%'`. -/
theorem C4_counterexample_created_at_not_is_not_null :
    translateComparison ((⟨[], [], [], [], 0⟩ : Translator).reset
        (createBaseMapping "dataset_id") (some []) (some []))
        ⟨"created_at", []⟩ ":" (PyVal.str "") =
      ("d.created_at ILIKE $1",
        { schemaMapping := createBaseMapping "dataset_id",
          globalSearchFields := []
          availableMetadataFields := []
          params := [PyVal.str "%%"]
          paramIndex := 1 }) := by
  rfl

/-- C4 (amended): only a field resolving to `last_edited_at` (literally, or
through a SQL column ending in `last_edited_at`) gets the special empty-value
treatment: a `:` comparison whose value is the empty string or None (and not
the `*` wildcard, which is the existence check) translates to
`<column> IS NOT NULL` and binds no parameter, leaving the translator state
untouched. -/
theorem C4_last_edited_at_empty_is_not_null (t : Translator) (f : QField)
    (value : PyVal)
    (hstar : pyEqStr value "*" = false)
    (hle : (f.head == "last_edited_at" || strHasSuf "last_edited_at"
      (fieldToSql t.schemaMapping f value (some ":")
        t.availableMetadataFields)) = true)
    (hempty : (pyEqStr value "" || value.isNone) = true) :
    translateComparison t f ":" value =
      (fieldToSql t.schemaMapping f value (some ":")
        t.availableMetadataFields ++ " IS NOT NULL", t) := by
  unfold translateComparison
  rw [if_neg (by simp [hstar])]
  simp [hle, hempty]

/-- C4 witness: the amended rule evaluated on the query `last_edited_at:`
against a freshly reset translator over the base dataset mapping, giving
`d.last_edited_at IS NOT NULL` and no parameters. -/
theorem C4_last_edited_at_empty_is_not_null_witness :
    (pyEqStr (PyVal.str "") "*" = false ∧
      ((QField.mk "last_edited_at" []).head == "last_edited_at" ||
        strHasSuf "last_edited_at"
          (fieldToSql ((⟨[], [], [], [], 0⟩ : Translator).reset
              (createBaseMapping "dataset_id") (some []) (some [])).schemaMapping
            ⟨"last_edited_at", []⟩ (PyVal.str "") (some ":")
            ((⟨[], [], [], [], 0⟩ : Translator).reset
              (createBaseMapping "dataset_id") (some [])
              (some [])).availableMetadataFields)) = true ∧
      (pyEqStr (PyVal.str "") "" || (PyVal.str "").isNone) = true) ∧
    translateComparison ((⟨[], [], [], [], 0⟩ : Translator).reset
        (createBaseMapping "dataset_id") (some []) (some []))
        ⟨"last_edited_at", []⟩ ":" (PyVal.str "") =
      (fieldToSql ((⟨[], [], [], [], 0⟩ : Translator).reset
          (createBaseMapping "dataset_id") (some []) (some [])).schemaMapping
        ⟨"last_edited_at", []⟩ (PyVal.str "") (some ":")
        ((⟨[], [], [], [], 0⟩ : Translator).reset
          (createBaseMapping "dataset_id") (some [])
          (some [])).availableMetadataFields ++ " IS NOT NULL",
       (⟨[], [], [], [], 0⟩ : Translator).reset
          (createBaseMapping "dataset_id") (some []) (some [])) :=
  ⟨⟨by decide, by decide, by decide⟩,
    C4_last_edited_at_empty_is_not_null _ _ _ (by decide) (by decide)
      (by decide)⟩

theorem mem_dropWhile_of_not (p : Char → Bool) (l : List Char) (c : Char)
    (hc : c ∈ l) (hp : p c = false) : c ∈ l.dropWhile p := by
  have hsplit : c ∈ l.takeWhile p ++ l.dropWhile p := by
    rw [List.takeWhile_append_dropWhile]
    exact hc
  rcases List.mem_append.mp hsplit with h | h
  · exact absurd (List.mem_takeWhile_imp h) (by simp [hp])
  · exact h

theorem mem_pyStrip (s : String) (c : Char) (hc : c ∈ s.data)
    (hp : pyIsSpace c = false) : c ∈ (pyStrip s).data := by
  show c ∈ ((s.data.dropWhile pyIsSpace).reverse.dropWhile pyIsSpace).reverse
  rw [List.mem_reverse]
  apply mem_dropWhile_of_not _ _ _ _ hp
  rw [List.mem_reverse]
  exact mem_dropWhile_of_not _ _ _ hc hp

theorem pyStrip_ne_empty_of_mem (s : String) (c : Char) (hc : c ∈ s.data)
    (hp : pyIsSpace c = false) : pyStrip s ≠ "" := by
  intro h
  have hmem := mem_pyStrip s c hc hp
  rw [h] at hmem
  exact List.not_mem_nil c hmem

theorem exists_not_space_of_pyStrip_ne (s : String) (h : pyStrip s ≠ "") :
    ∃ c ∈ s.data, pyIsSpace c = false := by
  by_contra hno
  push_neg at hno
  apply h
  have hall : ∀ c ∈ s.data, pyIsSpace c = true := by
    intro c hc
    simpa using hno c hc
  show pyStrip s = ""
  unfold pyStrip
  rw [show s.data.dropWhile pyIsSpace = [] from
    List.dropWhile_eq_nil_iff.mpr hall]
  rfl

theorem mem_strJoin_head (f : String) (rest : List String) (c : Char)
    (hc : c ∈ f.data) : c ∈ (strJoin " " (f :: rest)).data := by
  cases rest with
  | nil => exact hc
  | cons y ys =>
      show c ∈ (f ++ " " ++ strJoin " " (y :: ys)).data
      rw [String.data_append, String.data_append]
      exact List.mem_append.mpr (Or.inl (List.mem_append.mpr (Or.inl hc)))

theorem hybridLoop_fts (parse : String → Option AstNode) :
    ∀ (parts : List String) (t : Translator) (vcs fts : List String),
    (∀ x ∈ fts, ∃ c ∈ x.data, pyIsSpace c = false) →
    ∀ x ∈ (hybridLoop parse parts t vcs fts).2.2,
      ∃ c ∈ x.data, pyIsSpace c = false := by
  intro parts
  induction parts with
  | nil => intro t vcs fts h; exact h
  | cons p rest ih =>
      intro t vcs fts h
      rw [hybridLoop]
      by_cases hp : (pyStrip p == "") = true
      · rw [if_pos hp]
        exact ih t vcs fts h
      · rw [if_neg hp]
        cases hpar : parse (pyStrip p) with
        | some ast => exact ih _ _ _ h
        | none =>
            apply ih
            intro x hx
            rcases List.mem_append.mp hx with hx | hx
            · exact h x hx
            · have hxe : x = pyStrip p := List.mem_singleton.mp hx
              subst hxe
              have hne : pyStrip p ≠ "" :=
                beq_eq_false_iff_ne.mp (Bool.eq_false_iff.mpr hp)
              obtain ⟨c, hc, hcp⟩ := exists_not_space_of_pyStrip_ne p hne
              exact ⟨c, mem_pyStrip p c hc hcp, hcp⟩

theorem buildGlobalSearchClause_of (sv : String) (q : Bool)
    (fl : List String) (po : Nat) (hsv : (pyStrip sv == "") = false)
    (hfl : fl ≠ []) :
    buildGlobalSearchClause sv q fl po =
      ("(" ++ strJoin " OR "
          (fl.map (fun fn =>
            buildSearchCondition fn ("$" ++ Nat.repr (po + 1)) q)) ++ ")",
       "$" ++ Nat.repr (po + 1)) := by
  unfold buildGlobalSearchClause
  rw [if_neg (ne_true_of_eq_false hsv)]
  cases fl with
  | nil => exact absurd rfl hfl
  | cons f fs => rfl

theorem paren_ne_TRUE (x : String) :
    (("(" ++ x ++ ")") != "TRUE") = true := by
  have hne : ("(" ++ x ++ ")") ≠ "TRUE" := by
    intro h
    have hd := congrArg String.data h
    rw [String.data_append, String.data_append] at hd
    have hh : List.head? (("(").data ++ x.data ++ (")").data) =
        List.head? ("TRUE").data := congrArg List.head? hd
    have hq : some '(' = some 'T' := hh
    exact absurd (Option.some.inj hq) (by decide)
  have hb : (("(" ++ x ++ ")") == "TRUE") = false :=
    beq_eq_false_iff_ne.mpr hne
  show (!(("(" ++ x ++ ")") == "TRUE")) = true
  rw [hb]
  rfl

theorem hybridCombine_spec (gsf : List String) (q : String)
    (vcs fts : List String) (ps : List PyVal) (hgsf : gsf ≠ [])
    (hfts : ∀ x ∈ fts, ∃ c ∈ x.data, pyIsSpace c = false) :
    (hybridCombine gsf q vcs fts ps).1 =
      (if (specHybridAllClauses gsf q vcs fts ps.length).isEmpty then "TRUE"
       else "(" ++ strJoin " AND "
         (specHybridAllClauses gsf q vcs fts ps.length) ++ ")") := by
  unfold hybridCombine specHybridAllClauses
  by_cases hfe : fts.isEmpty = true
  · rw [if_pos hfe, if_pos hfe]
    by_cases hv : vcs.isEmpty = true
    · simp [hv]
    · simp [hv]
  · rw [if_neg hfe, if_neg hfe]
    cases fts with
    | nil => exact absurd rfl hfe
    | cons f rest =>
        obtain ⟨c, hc, hcp⟩ := hfts f (by simp)
        have hcj : c ∈ (strJoin " " (f :: rest)).data :=
          mem_strJoin_head f rest c hc
        have h1 : (pyStrip (strJoin " " (f :: rest)) == "") = false :=
          beq_eq_false_iff_ne.mpr (pyStrip_ne_empty_of_mem _ c hcj hcp)
        have h2 : (pyStrip (pyStrip (strJoin " " (f :: rest))) == "") =
            false :=
          beq_eq_false_iff_ne.mpr (pyStrip_ne_empty_of_mem _ c
            (mem_pyStrip _ c hcj hcp) hcp)
        have hbc := buildGlobalSearchClause_of
          (pyStrip (strJoin " " (f :: rest))) (hasQuotedSpan q) gsf
          ps.length h2 hgsf
        have hbs := buildGlobalSearchClause_of (strJoin " " (f :: rest))
          (hasQuotedSpan q) gsf ps.length h1 hgsf
        simp only [hbc, hbs, paren_ne_TRUE]
        simp

/-- C3: Hybrid rescue. For every part-parse oracle, schema mapping,
non-empty global-search field list, translator and query string, the WHERE
clause `_build_hybrid_search_clause` builds equals the one the
specification sentence describes: the input is split on case-insensitive
AND with surrounding whitespace, each (stripped, non-empty) part is parsed
and translated individually with successful clauses accumulated in order,
the still-failing parts are joined back with single spaces into one
residue treated as a single global-search value whose is_quoted flag is
set exactly when the original input contains a quoted span, the final
WHERE is the AND-join of the successful clauses plus the residue clause,
and it is the literal `TRUE` when no clause at all is produced. -/
theorem C3_hybrid_rescue (parse : String → Option AstNode)
    (sm : List (String × String)) (gsf : List String) (t : Translator)
    (q : String) (hgsf : gsf ≠ []) :
    (buildHybridSearchClause parse sm gsf t q).1 =
      specHybridWhere parse sm gsf t q := by
  have hfts := hybridLoop_fts parse (reSplitAnd q)
    (t.reset sm (some gsf) Option.none) [] []
    (fun x hx => absurd hx (List.not_mem_nil x))
  exact hybridCombine_spec gsf q _ _ _ hgsf hfts

/-- C3 witness: the rescue evaluated on the query
`energy:91 AND higgs 'boson'` with an oracle that parses only the first
part, the base dataset mapping and one global-search field. -/
theorem C3_hybrid_rescue_witness :
    (["d.name"] : List String) ≠ [] ∧
    (buildHybridSearchClause
        (fun s => if s == "energy:91" then
          some (.comparison ⟨"energy", []⟩ ":" (.str "91"))
          else Option.none)
        (createBaseMapping "dataset_id") ["d.name"]
        (⟨[], [], [], [], 0⟩ : Translator)
        "energy:91 AND higgs 'boson'").1 =
      specHybridWhere
        (fun s => if s == "energy:91" then
          some (.comparison ⟨"energy", []⟩ ":" (.str "91"))
          else Option.none)
        (createBaseMapping "dataset_id") ["d.name"]
        (⟨[], [], [], [], 0⟩ : Translator)
        "energy:91 AND higgs 'boson'" :=
  ⟨by decide,
    C3_hybrid_rescue _ (createBaseMapping "dataset_id") ["d.name"] _ _
      (by decide)⟩

/-- C1 witness: the amended characterization evaluated at a concrete merge in
which `energy` is locked, `status` is free and a new lock is introduced. -/
theorem C1_merge_respecting_locks_characterized_witness :
    dictGet?
        (mergeMetadataRespectingLocks
          [("energy", PyVal.int 100), ("__energy__lock__", PyVal.bool true),
           ("status", PyVal.str "old")]
          [("energy", PyVal.int 200), ("status", PyVal.str "done"),
           ("__status__lock__", PyVal.bool true)]) "energy" =
      some (PyVal.int 100) := by
  have h :=
    (C1_merge_respecting_locks_characterized
      [("energy", PyVal.int 100), ("__energy__lock__", PyVal.bool true),
       ("status", PyVal.str "old")]
      [("energy", PyVal.int 200), ("status", PyVal.str "done"),
       ("__status__lock__", PyVal.bool true)] "energy" (by decide)).1
  rw [h]; rfl

end FccEv
